import Mathlib

/-!
Shallow embedding of the `disintegrate-car-rental-demo` repository:
the event-sourced decision engine (`src/domain.rs`, duplicated verbatim in
`src/application.rs`) and the read-model projector (`src/read_model.rs`).

Conventions of the embedding:
* `DateTime<Utc>` timestamps are opaque `Nat` values; `Utc::now()` becomes an
  explicit `now : Nat` argument of the decision `process` functions.
* `HashSet<PlateNumber>` is modelled as a duplicate-free `List PlateNumber`
  (`hsInsert` inserts only when absent, `hsRemove` is `List.erase`); the
  iteration order of a `HashSet` is unspecified, so `iter().last()` is
  modelled as `List.getLast?` — the claims proved below depend only on
  membership and emptiness, never on which element is picked.
* Fallible Rust code returns `Except`/`Option`; a Rust `panic` (an `.unwrap()`
  of an error value) is modelled as `none` / a dedicated `panicked` result.
-/

namespace CarRental

/-- `pub type PlateNumber = String;` (src/domain.rs). -/
abbrev PlateNumber := String

/-- `pub type Email = String;` (src/domain.rs). -/
abbrev Email := String

/-- `pub enum VehicleType { Car, PickUp, Van, Truck }` (src/domain.rs). -/
inductive VehicleType where
  | car
  | pickUp
  | van
  | truck
deriving DecidableEq, Repr

/-- The `Display` impl for `VehicleType` (src/domain.rs): canonical lowercase
snake-case strings, used by the projector when storing `vehicle_type`. -/
def VehicleType.display : VehicleType → String
  | .car => "car"
  | .pickUp => "pick_up"
  | .van => "van"
  | .truck => "truck"

/-- `pub enum DomainEvent` (src/domain.rs), with its four variants.
Timestamps are opaque `Nat`s. -/
inductive DomainEvent where
  | customerRegistered (customer_id : Email) (first_name last_name : String)
  | vehicleAdded (vehicle_id : PlateNumber) (vehicle_type : VehicleType)
  | vehicleRented (customer_id : Email) (vehicle_id : PlateNumber)
      (vehicle_type : VehicleType) (start_date : Nat)
  | vehicleReturned (customer_id : Email) (vehicle_id : PlateNumber)
      (vehicle_type : VehicleType) (returned_date : Nat)
deriving DecidableEq, Repr

/-- Event group `CustomerEvent = [CustomerRegistered]` (the `#[group]`
attribute on `DomainEvent`). -/
inductive CustomerEvent where
  | customerRegistered (customer_id : Email) (first_name last_name : String)
deriving DecidableEq, Repr

/-- Event group `VehicleEvent = [VehicleAdded]`. -/
inductive VehicleEvent where
  | vehicleAdded (vehicle_id : PlateNumber) (vehicle_type : VehicleType)
deriving DecidableEq, Repr

/-- Event group `RentEvent = [VehicleAdded, VehicleRented, VehicleReturned]`. -/
inductive RentEvent where
  | vehicleAdded (vehicle_id : PlateNumber) (vehicle_type : VehicleType)
  | vehicleRented (customer_id : Email) (vehicle_id : PlateNumber)
      (vehicle_type : VehicleType) (start_date : Nat)
  | vehicleReturned (customer_id : Email) (vehicle_id : PlateNumber)
      (vehicle_type : VehicleType) (returned_date : Nat)
deriving DecidableEq, Repr

/-- Membership of a `DomainEvent` in the `CustomerEvent` group. -/
def DomainEvent.toCustomerEvent : DomainEvent → Option CustomerEvent
  | .customerRegistered c f l => some (.customerRegistered c f l)
  | _ => none

/-- Membership of a `DomainEvent` in the `VehicleEvent` group. -/
def DomainEvent.toVehicleEvent : DomainEvent → Option VehicleEvent
  | .vehicleAdded v t => some (.vehicleAdded v t)
  | _ => none

/-- Membership of a `DomainEvent` in the `RentEvent` group. -/
def DomainEvent.toRentEvent : DomainEvent → Option RentEvent
  | .customerRegistered _ _ _ => none
  | .vehicleAdded v t => some (.vehicleAdded v t)
  | .vehicleRented c v t d => some (.vehicleRented c v t d)
  | .vehicleReturned c v t d => some (.vehicleReturned c v t d)

/-! ### State-query entities (src/domain.rs) -/

/-- `pub struct CustomerRegistration` (src/domain.rs). -/
structure CustomerRegistration where
  customer_id : Email
  registered : Bool
deriving DecidableEq, Repr

/-- `CustomerRegistration::new` (src/domain.rs). -/
def CustomerRegistration.new (customer_id : Email) : CustomerRegistration :=
  { customer_id := customer_id, registered := false }

/-- `impl StateMutate for CustomerRegistration` (src/domain.rs). -/
def CustomerRegistration.mutate (s : CustomerRegistration) (e : CustomerEvent) :
    CustomerRegistration :=
  match e with
  | .customerRegistered _ _ _ => { s with registered := true }

/-- `pub struct VehicleRegistration` (src/domain.rs). -/
structure VehicleRegistration where
  vehicle_id : PlateNumber
  registered : Bool
deriving DecidableEq, Repr

/-- `VehicleRegistration::new` (src/domain.rs). -/
def VehicleRegistration.new (vehicle_id : PlateNumber) : VehicleRegistration :=
  { vehicle_id := vehicle_id, registered := false }

/-- `impl StateMutate for VehicleRegistration` (src/domain.rs). -/
def VehicleRegistration.mutate (s : VehicleRegistration) (e : VehicleEvent) :
    VehicleRegistration :=
  match e with
  | .vehicleAdded _ _ => { s with registered := true }

/-- `HashSet::insert`: adds the element when absent (set semantics; the model
keeps the list duplicate-free). -/
def hsInsert (l : List PlateNumber) (x : PlateNumber) : List PlateNumber :=
  if x ∈ l then l else l ++ [x]

/-- `HashSet::remove`. -/
def hsRemove (l : List PlateNumber) (x : PlateNumber) : List PlateNumber :=
  l.erase x

/-- `pub struct VehicleAvailability` (src/domain.rs); the `HashSet` of
available plates is modelled as a duplicate-free list. -/
structure VehicleAvailability where
  vehicle_type : VehicleType
  available_vehicles : List PlateNumber
deriving DecidableEq, Repr

/-- `VehicleAvailability::new` (src/domain.rs). -/
def VehicleAvailability.new (vehicle_type : VehicleType) : VehicleAvailability :=
  { vehicle_type := vehicle_type, available_vehicles := [] }

/-- `impl StateMutate for VehicleAvailability` (src/domain.rs):
`VehicleAdded` and `VehicleReturned` insert the plate, `VehicleRented`
removes it. -/
def VehicleAvailability.mutate (s : VehicleAvailability) (e : RentEvent) :
    VehicleAvailability :=
  match e with
  | .vehicleAdded vehicle_id _ =>
      { s with available_vehicles := hsInsert s.available_vehicles vehicle_id }
  | .vehicleRented _ vehicle_id _ _ =>
      { s with available_vehicles := hsRemove s.available_vehicles vehicle_id }
  | .vehicleReturned _ vehicle_id _ _ =>
      { s with available_vehicles := hsInsert s.available_vehicles vehicle_id }

/-- `pub struct CustomerRentalStatus` (src/domain.rs). -/
structure CustomerRentalStatus where
  customer_id : Email
  rented_vehicle_type : Option VehicleType
  rented_vehicle_id : Option PlateNumber
deriving DecidableEq, Repr

/-- `CustomerRentalStatus::new` (src/domain.rs). -/
def CustomerRentalStatus.new (customer_id : Email) : CustomerRentalStatus :=
  { customer_id := customer_id, rented_vehicle_type := none,
    rented_vehicle_id := none }

/-- `impl StateMutate for CustomerRentalStatus` (src/domain.rs):
`VehicleAdded` is ignored, `VehicleRented` records the pair,
`VehicleReturned` clears it. -/
def CustomerRentalStatus.mutate (s : CustomerRentalStatus) (e : RentEvent) :
    CustomerRentalStatus :=
  match e with
  | .vehicleAdded _ _ => s
  | .vehicleRented _ vehicle_id vehicle_type _ =>
      { s with rented_vehicle_id := some vehicle_id,
               rented_vehicle_type := some vehicle_type }
  | .vehicleReturned _ _ _ _ =>
      { s with rented_vehicle_id := none, rented_vehicle_type := none }

/-- `pub enum Error` (src/domain.rs). -/
inductive Error where
  | alreadyRegisteredVehicle
  | alreadyRegisteredCustomer
  | noAvailableVehicles
  | rentalInProgress
  | customerNotFound
  | rentalNotFound
deriving DecidableEq, Repr

/-! ### Stream queries and the state hydrator

The `#[derive(StateQuery)]` on each state entity generates a stream query:
events whose type is in the entity's group and whose identifier fields
(those marked `#[id]` on the state struct) equal the entity's identifier
values.  An event variant that lacks one of the state's identifier fields is
not constrained by it (e.g. `VehicleAdded` carries no `customer_id`, so it
matches any `CustomerRentalStatus` query; its `mutate` arm ignores it). -/

/-- Identifier filter of `CustomerRegistration` (`#[id] customer_id`). -/
def CustomerEvent.matchesId (cid : Email) : CustomerEvent → Bool
  | .customerRegistered c _ _ => decide (c = cid)

/-- Identifier filter of `VehicleRegistration` (`#[id] vehicle_id`). -/
def VehicleEvent.matchesId (vid : PlateNumber) : VehicleEvent → Bool
  | .vehicleAdded v _ => decide (v = vid)

/-- Identifier filter of `VehicleAvailability` (`#[id] vehicle_type`). -/
def RentEvent.matchesVehicleType (vt : VehicleType) : RentEvent → Bool
  | .vehicleAdded _ t => decide (t = vt)
  | .vehicleRented _ _ t _ => decide (t = vt)
  | .vehicleReturned _ _ t _ => decide (t = vt)

/-- Identifier filter of `CustomerRentalStatus` (`#[id] customer_id`);
`VehicleAdded` has no `customer_id` field, so it is unconstrained. -/
def RentEvent.matchesCustomer (cid : Email) : RentEvent → Bool
  | .vehicleAdded _ _ => true
  | .vehicleRented c _ _ _ => decide (c = cid)
  | .vehicleReturned c _ _ _ => decide (c = cid)

/-- Whether a log event matches a state's stream query: it is in the group
(`toG`) and passes the identifier filter (`m`). -/
def matchesQuery {ε : Type} (toG : DomainEvent → Option ε) (m : ε → Bool)
    (e : DomainEvent) : Bool :=
  (toG e).any m

/-- One hydration step: apply `mutate` when the event matches the query,
otherwise leave the state unchanged. -/
def applyIf {σ ε : Type} (toG : DomainEvent → Option ε) (m : ε → Bool)
    (mutf : σ → ε → σ) (s : σ) (e : DomainEvent) : σ :=
  match toG e with
  | some ge => if m ge then mutf s ge else s
  | none => s

/-- Modelled from the spec: the state hydrator of the `disintegrate` library
(not part of this repository's `src/`; spec §4.2): replay the events of the
log that match the state's query in log order, fold `mutate` over them
starting from the zero state, and track the log position of the last applied
event, `none` ("no events") when the stream is empty. -/
def hydrateGo {σ ε : Type} (toG : DomainEvent → Option ε) (m : ε → Bool)
    (mutf : σ → ε → σ) : List DomainEvent → Nat → σ → Option Nat → σ × Option Nat
  | [], _, s, ver => (s, ver)
  | e :: rest, pos, s, ver =>
    match toG e with
    | some ge =>
        if m ge then hydrateGo toG m mutf rest (pos + 1) (mutf s ge) (some pos)
        else hydrateGo toG m mutf rest (pos + 1) s ver
    | none => hydrateGo toG m mutf rest (pos + 1) s ver

/-- Modelled from the spec: `hydrate(initial_state) -> (state, version)`
(spec §4.2), positions counted from zero. -/
def hydrate {σ ε : Type} (zero : σ) (toG : DomainEvent → Option ε)
    (m : ε → Bool) (mutf : σ → ε → σ) (log : List DomainEvent) : σ × Option Nat :=
  hydrateGo toG m mutf log 0 zero none

/-- Hydration (state and version) of `CustomerRegistration(cid)`. -/
def hydrateCustomerRegistrationV (cid : Email) (log : List DomainEvent) :
    CustomerRegistration × Option Nat :=
  hydrate (CustomerRegistration.new cid) DomainEvent.toCustomerEvent
    (CustomerEvent.matchesId cid) CustomerRegistration.mutate log

/-- Hydration (state and version) of `VehicleRegistration(vid)`. -/
def hydrateVehicleRegistrationV (vid : PlateNumber) (log : List DomainEvent) :
    VehicleRegistration × Option Nat :=
  hydrate (VehicleRegistration.new vid) DomainEvent.toVehicleEvent
    (VehicleEvent.matchesId vid) VehicleRegistration.mutate log

/-- Hydration (state and version) of `VehicleAvailability(vt)`. -/
def hydrateVehicleAvailabilityV (vt : VehicleType) (log : List DomainEvent) :
    VehicleAvailability × Option Nat :=
  hydrate (VehicleAvailability.new vt) DomainEvent.toRentEvent
    (RentEvent.matchesVehicleType vt) VehicleAvailability.mutate log

/-- Hydration (state and version) of `CustomerRentalStatus(cid)`. -/
def hydrateCustomerRentalStatusV (cid : Email) (log : List DomainEvent) :
    CustomerRentalStatus × Option Nat :=
  hydrate (CustomerRentalStatus.new cid) DomainEvent.toRentEvent
    (RentEvent.matchesCustomer cid) CustomerRentalStatus.mutate log

/-- One hydration step of `CustomerRegistration(cid)` on a raw log event. -/
def applyCustomerRegistration (cid : Email) (s : CustomerRegistration)
    (e : DomainEvent) : CustomerRegistration :=
  applyIf DomainEvent.toCustomerEvent (CustomerEvent.matchesId cid)
    CustomerRegistration.mutate s e

/-- One hydration step of `VehicleRegistration(vid)` on a raw log event. -/
def applyVehicleRegistration (vid : PlateNumber) (s : VehicleRegistration)
    (e : DomainEvent) : VehicleRegistration :=
  applyIf DomainEvent.toVehicleEvent (VehicleEvent.matchesId vid)
    VehicleRegistration.mutate s e

/-- One hydration step of `VehicleAvailability(vt)` on a raw log event. -/
def applyVehicleAvailability (vt : VehicleType) (s : VehicleAvailability)
    (e : DomainEvent) : VehicleAvailability :=
  applyIf DomainEvent.toRentEvent (RentEvent.matchesVehicleType vt)
    VehicleAvailability.mutate s e

/-- One hydration step of `CustomerRentalStatus(cid)` on a raw log event. -/
def applyCustomerRentalStatus (cid : Email) (s : CustomerRentalStatus)
    (e : DomainEvent) : CustomerRentalStatus :=
  applyIf DomainEvent.toRentEvent (RentEvent.matchesCustomer cid)
    CustomerRentalStatus.mutate s e

/-- Hydrated `CustomerRegistration(cid)` state (the fold, without version). -/
def hydrateCustomerRegistration (cid : Email) (log : List DomainEvent) :
    CustomerRegistration :=
  log.foldl (applyCustomerRegistration cid) (CustomerRegistration.new cid)

/-- Hydrated `VehicleRegistration(vid)` state. -/
def hydrateVehicleRegistration (vid : PlateNumber) (log : List DomainEvent) :
    VehicleRegistration :=
  log.foldl (applyVehicleRegistration vid) (VehicleRegistration.new vid)

/-- Hydrated `VehicleAvailability(vt)` state. -/
def hydrateVehicleAvailability (vt : VehicleType) (log : List DomainEvent) :
    VehicleAvailability :=
  log.foldl (applyVehicleAvailability vt) (VehicleAvailability.new vt)

/-- Hydrated `CustomerRentalStatus(cid)` state. -/
def hydrateCustomerRentalStatus (cid : Email) (log : List DomainEvent) :
    CustomerRentalStatus :=
  log.foldl (applyCustomerRentalStatus cid) (CustomerRentalStatus.new cid)

/-! ### Commands and their decision processors (src/domain.rs; the same code
is duplicated in src/application.rs) -/

/-- `pub struct RegisterVehicle` (src/domain.rs). -/
structure RegisterVehicle where
  vehicle_id : PlateNumber
  vehicle_type : VehicleType
deriving DecidableEq, Repr

/-- `RegisterVehicle::process` (src/domain.rs lines 238–247). -/
def RegisterVehicle.process (cmd : RegisterVehicle) (state : VehicleRegistration) :
    Except Error (List DomainEvent) :=
  if state.registered then .error Error.alreadyRegisteredVehicle
  else .ok [DomainEvent.vehicleAdded cmd.vehicle_id cmd.vehicle_type]

/-- `pub struct RegisterCustomer` (src/domain.rs). -/
structure RegisterCustomer where
  customer_id : Email
  first_name : String
  last_name : String
deriving DecidableEq, Repr

/-- `RegisterCustomer::process` (src/domain.rs lines 268–278). -/
def RegisterCustomer.process (cmd : RegisterCustomer)
    (state : CustomerRegistration) : Except Error (List DomainEvent) :=
  if state.registered then .error Error.alreadyRegisteredCustomer
  else .ok [DomainEvent.customerRegistered cmd.customer_id cmd.first_name
              cmd.last_name]

/-- `pub struct StartRent` (src/domain.rs). -/
structure StartRent where
  customer_id : Email
  vehicle_type : VehicleType
deriving DecidableEq, Repr

/-- `StartRent::process` (src/domain.rs lines 306–329).  The order of the
three checks mirrors the source: customer registration first, then the
availability lookup (`iter().last()`, modelled as `getLast?`), then the
rental-in-progress check.  `Utc::now()` is the explicit `now` argument. -/
def StartRent.process (cmd : StartRent)
    (state : CustomerRegistration × CustomerRentalStatus × VehicleAvailability)
    (now : Nat) : Except Error (List DomainEvent) :=
  let (customer_registration, customer_rental_status, vehicle_availability) :=
    state
  if !customer_registration.registered then .error Error.customerNotFound
  else
    match vehicle_availability.available_vehicles.getLast? with
    | none => .error Error.noAvailableVehicles
    | some vehicle =>
        if customer_rental_status.rented_vehicle_id.isSome then
          .error Error.rentalInProgress
        else
          .ok [DomainEvent.vehicleRented cmd.customer_id vehicle
                 cmd.vehicle_type now]

/-- `StartRent::state_query` hydrated against a log: the triple of states the
decision reads. -/
def startRentState (cmd : StartRent) (log : List DomainEvent) :
    CustomerRegistration × CustomerRentalStatus × VehicleAvailability :=
  (hydrateCustomerRegistration cmd.customer_id log,
   hydrateCustomerRentalStatus cmd.customer_id log,
   hydrateVehicleAvailability cmd.vehicle_type log)

/-- `pub struct EndRent` (src/domain.rs). -/
structure EndRent where
  customer_id : Email
deriving DecidableEq, Repr

/-- `EndRent::state_query` hydrated against a log. -/
def endRentState (cmd : EndRent) (log : List DomainEvent) : CustomerRentalStatus :=
  hydrateCustomerRentalStatus cmd.customer_id log

/-- `EndRent::process` (src/domain.rs lines 348–359).  The source calls
`state.rented_vehicle_type.as_ref().unwrap()`; the panic of that `unwrap`
when `rented_vehicle_type` is `None` is modelled as the result `none`. -/
def EndRent.process (cmd : EndRent) (state : CustomerRentalStatus) (now : Nat) :
    Option (Except Error (List DomainEvent)) :=
  match state.rented_vehicle_id with
  | some rented_vehicle_id =>
      match state.rented_vehicle_type with
      | some vt =>
          some (.ok [DomainEvent.vehicleReturned cmd.customer_id
                       rented_vehicle_id vt now])
      | none => none
  | none => some (.error Error.rentalNotFound)

/-! ### Reachable logs

The event logs this system can actually produce: starting from the empty log,
each append is the event list emitted by one successful decision, processed
against the state hydrated from the current log (optimistic concurrency makes
the hydrate–decide–append of each commit atomic with respect to the log). -/

/-- Logs reachable from the empty log by the four decision processors. -/
inductive Reachable : List DomainEvent → Prop where
  | nil : Reachable []
  | registerVehicle (log : List DomainEvent) (cmd : RegisterVehicle)
      (evs : List DomainEvent) :
      Reachable log →
      cmd.process (hydrateVehicleRegistration cmd.vehicle_id log) = .ok evs →
      Reachable (log ++ evs)
  | registerCustomer (log : List DomainEvent) (cmd : RegisterCustomer)
      (evs : List DomainEvent) :
      Reachable log →
      cmd.process (hydrateCustomerRegistration cmd.customer_id log) = .ok evs →
      Reachable (log ++ evs)
  | startRent (log : List DomainEvent) (cmd : StartRent) (now : Nat)
      (evs : List DomainEvent) :
      Reachable log →
      cmd.process (startRentState cmd log) now = .ok evs →
      Reachable (log ++ evs)
  | endRent (log : List DomainEvent) (cmd : EndRent) (now : Nat)
      (evs : List DomainEvent) :
      Reachable log →
      cmd.process (endRentState cmd log) now = some (.ok evs) →
      Reachable (log ++ evs)

/-! ### Log-level rental predicates -/

/-- One step of the "is vehicle `v` currently rented" log scan. -/
def rentedStep (v : PlateNumber) (b : Bool) (e : DomainEvent) : Bool :=
  match e with
  | .vehicleRented _ vid _ _ => if vid = v then true else b
  | .vehicleReturned _ vid _ _ => if vid = v then false else b
  | _ => b

/-- Vehicle `v` is currently rented after `log`: the last
`VehicleRented`/`VehicleReturned` event for `v`, if any, is a `VehicleRented`. -/
def rentedNow (v : PlateNumber) (log : List DomainEvent) : Bool :=
  log.foldl (rentedStep v) false

/-- Every `VehicleRented` for vehicle `v` in the log is followed by a later
`VehicleReturned` for `v` ("the vehicle is not currently rented"). -/
def allRentsClosed (v : PlateNumber) (log : List DomainEvent) : Prop :=
  ∀ l1 c vt t l2, log = l1 ++ DomainEvent.vehicleRented c v vt t :: l2 →
    ∃ c2 vt2 t2, DomainEvent.vehicleReturned c2 v vt2 t2 ∈ l2

/-- No rental-lifecycle event (`VehicleRented`/`VehicleReturned`) for customer
`c` occurs in `l`. -/
def noLifecycleFor (c : Email) (l : List DomainEvent) : Prop :=
  ∀ e ∈ l, (∀ v vt t, e ≠ DomainEvent.vehicleRented c v vt t) ∧
           (∀ v vt t, e ≠ DomainEvent.vehicleReturned c v vt t)

/-! ### The read-model projector (src/read_model.rs)

The three tables created by `ReadModelProjection::new` are modelled as lists
of rows; the SQL statements executed by `handle` are modelled by their
standard semantics against those tables: a plain `INSERT` fails with a
unique-constraint violation when a row with the same primary key already
exists, the conditional `UPDATE` modifies every matching row and never fails.
`handle` calls `.unwrap()` on each statement's result, so a statement error
is a panic of the handler, modelled as the `panicked` outcome. -/

/-- A row of the `customer` table (`customer_id` primary key). -/
structure CustomerRow where
  customer_id : Email
  first_name : String
  last_name : String
deriving DecidableEq, Repr

/-- A row of the `vehicle` table (`vehicle_id` primary key; `vehicle_type`
stored as its display string). -/
structure VehicleRow where
  vehicle_id : PlateNumber
  vehicle_type : String
deriving DecidableEq, Repr

/-- A row of the `rent` table (primary key `(customer_id, vehicle_id)`,
`end_date` nullable). -/
structure RentRow where
  customer_id : Email
  vehicle_id : PlateNumber
  start_date : Nat
  end_date : Option Nat
deriving DecidableEq, Repr

/-- The projection database: the three tables of `ReadModelProjection::new`. -/
structure DB where
  customer : List CustomerRow
  vehicle : List VehicleRow
  rent : List RentRow
deriving DecidableEq, Repr

/-- The empty projection database. -/
def DB.empty : DB := { customer := [], vehicle := [], rent := [] }

/-- A statement error surfaced to the handler (here only the primary-key
unique-constraint violation of a plain `INSERT`). -/
inductive SqlError where
  | uniqueViolation
deriving DecidableEq, Repr

/-- `INSERT INTO customer (customer_id, first_name, last_name) VALUES(..)`:
fails with a unique violation when the primary key is already present. -/
def insertCustomer (db : DB) (row : CustomerRow) : Except SqlError DB :=
  if db.customer.any (fun r => decide (r.customer_id = row.customer_id)) then
    .error SqlError.uniqueViolation
  else .ok { db with customer := db.customer ++ [row] }

/-- `INSERT INTO vehicle (vehicle_id, vehicle_type) VALUES(..)`. -/
def insertVehicle (db : DB) (row : VehicleRow) : Except SqlError DB :=
  if db.vehicle.any (fun r => decide (r.vehicle_id = row.vehicle_id)) then
    .error SqlError.uniqueViolation
  else .ok { db with vehicle := db.vehicle ++ [row] }

/-- `INSERT INTO rent (customer_id, vehicle_id, start_date) VALUES(..)`
(`end_date` left null). -/
def insertRent (db : DB) (row : RentRow) : Except SqlError DB :=
  if db.rent.any (fun r =>
      decide (r.customer_id = row.customer_id ∧ r.vehicle_id = row.vehicle_id))
  then .error SqlError.uniqueViolation
  else .ok { db with rent := db.rent ++ [row] }

/-- `UPDATE rent SET end_date = $3 where customer_id = $1 and vehicle_id = $2
and end_date is null`: updates every matching row, no error when none match. -/
def updateRentReturn (db : DB) (c : Email) (v : PlateNumber) (d : Nat) : DB :=
  { db with rent := db.rent.map (fun r =>
      if r.customer_id = c ∧ r.vehicle_id = v ∧ r.end_date = none then
        { r with end_date := some d }
      else r) }

/-- The outcome of one `ReadModelProjection::handle` call: the new database,
or a panic of the handler task (`.unwrap()` of a statement error). -/
inductive HandleResult where
  | ok (db : DB)
  | panicked
deriving DecidableEq, Repr

/-- `ReadModelProjection::handle` (src/read_model.rs lines 61–117): one
per-event-type statement, `.unwrap()`ed. -/
def ReadModelProjection.handle (db : DB) (e : DomainEvent) : HandleResult :=
  match e with
  | .customerRegistered customer_id first_name last_name =>
      match insertCustomer db
          { customer_id := customer_id, first_name := first_name,
            last_name := last_name } with
      | .ok db2 => .ok db2
      | .error _ => .panicked
  | .vehicleAdded vehicle_id vehicle_type =>
      match insertVehicle db
          { vehicle_id := vehicle_id,
            vehicle_type := vehicle_type.display } with
      | .ok db2 => .ok db2
      | .error _ => .panicked
  | .vehicleRented customer_id vehicle_id _ start_date =>
      match insertRent db
          { customer_id := customer_id, vehicle_id := vehicle_id,
            start_date := start_date, end_date := none } with
      | .ok db2 => .ok db2
      | .error _ => .panicked
  | .vehicleReturned customer_id vehicle_id _ returned_date =>
      .ok (updateRentReturn db customer_id vehicle_id returned_date)

/-- The joint invariant of reachable logs used to settle the availability
claim: (1) a plate is in the hydrated availability set for a type iff it was
added with that type and is not currently rented; (2) a currently rented
plate was added; (3) a plate is added with at most one type; (4) an open
rental recorded in a customer's hydrated status is for an added plate that
is currently rented; (5) at most one customer has a given plate open. -/
def RentalInvariant (log : List DomainEvent) : Prop :=
  (∀ v vt, v ∈ (hydrateVehicleAvailability vt log).available_vehicles ↔
      (DomainEvent.vehicleAdded v vt ∈ log ∧ rentedNow v log = false)) ∧
  (∀ v, rentedNow v log = true → ∃ vt, DomainEvent.vehicleAdded v vt ∈ log) ∧
  (∀ v a b, DomainEvent.vehicleAdded v a ∈ log →
      DomainEvent.vehicleAdded v b ∈ log → a = b) ∧
  (∀ c v vt, (hydrateCustomerRentalStatus c log).rented_vehicle_id = some v →
      (hydrateCustomerRentalStatus c log).rented_vehicle_type = some vt →
      DomainEvent.vehicleAdded v vt ∈ log ∧ rentedNow v log = true) ∧
  (∀ c c2 v, (hydrateCustomerRentalStatus c log).rented_vehicle_id = some v →
      (hydrateCustomerRentalStatus c2 log).rented_vehicle_id = some v → c = c2)

/-! ## Lemmas: the hydrator is the query-filtered fold -/

theorem hydrateGo_fst {σ ε : Type} (toG : DomainEvent → Option ε) (m : ε → Bool)
    (mutf : σ → ε → σ) :
    ∀ (l : List DomainEvent) (pos : Nat) (s : σ) (ver : Option Nat),
      (hydrateGo toG m mutf l pos s ver).1 = l.foldl (applyIf toG m mutf) s := by
  intro l
  induction l with
  | nil => intro pos s ver; rfl
  | cons e rest ih =>
    intro pos s ver
    simp only [hydrateGo, List.foldl_cons, applyIf]
    cases hG : toG e with
    | none => exact ih _ _ _
    | some ge =>
      by_cases hM : m ge
      · simp only [hM, if_true]; exact ih _ _ _
      · simp only [hM, if_false]; exact ih _ _ _

theorem hydrateCustomerRegistrationV_fst (cid : Email) (log : List DomainEvent) :
    (hydrateCustomerRegistrationV cid log).1 = hydrateCustomerRegistration cid log :=
  hydrateGo_fst _ _ _ log 0 _ none

theorem hydrateVehicleRegistrationV_fst (vid : PlateNumber) (log : List DomainEvent) :
    (hydrateVehicleRegistrationV vid log).1 = hydrateVehicleRegistration vid log :=
  hydrateGo_fst _ _ _ log 0 _ none

theorem hydrateVehicleAvailabilityV_fst (vt : VehicleType) (log : List DomainEvent) :
    (hydrateVehicleAvailabilityV vt log).1 = hydrateVehicleAvailability vt log :=
  hydrateGo_fst _ _ _ log 0 _ none

theorem hydrateCustomerRentalStatusV_fst (cid : Email) (log : List DomainEvent) :
    (hydrateCustomerRentalStatusV cid log).1 = hydrateCustomerRentalStatus cid log :=
  hydrateGo_fst _ _ _ log 0 _ none

theorem foldl_applyIf_of_all_match {σ ε : Type} (toG : DomainEvent → Option ε)
    (m : ε → Bool) (mutf : σ → ε → σ) :
    ∀ (log : List DomainEvent) (s : σ),
      (∀ e ∈ log, matchesQuery toG m e = true) →
      log.foldl (applyIf toG m mutf) s = (log.filterMap toG).foldl mutf s := by
  intro log
  induction log with
  | nil => intro s _; rfl
  | cons e rest ih =>
    intro s hall
    have he : matchesQuery toG m e = true := hall e (List.mem_cons_self e rest)
    cases hG : toG e with
    | none => simp [matchesQuery, hG] at he
    | some ge =>
      have hM : m ge = true := by simpa [matchesQuery, hG] using he
      simp only [List.foldl_cons, List.filterMap_cons, hG, applyIf, hM, if_true]
      exact ih _ (fun e2 h2 => hall e2 (List.mem_cons_of_mem _ h2))

/-! ## Lemmas: single-event hydration steps -/

theorem hydrateCustomerRegistration_append (cid : Email) (log : List DomainEvent)
    (e : DomainEvent) :
    hydrateCustomerRegistration cid (log ++ [e]) =
      applyCustomerRegistration cid (hydrateCustomerRegistration cid log) e := by
  simp [hydrateCustomerRegistration, List.foldl_append]

theorem hydrateVehicleRegistration_append (vid : PlateNumber)
    (log : List DomainEvent) (e : DomainEvent) :
    hydrateVehicleRegistration vid (log ++ [e]) =
      applyVehicleRegistration vid (hydrateVehicleRegistration vid log) e := by
  simp [hydrateVehicleRegistration, List.foldl_append]

theorem hydrateVehicleAvailability_append (vt : VehicleType)
    (log : List DomainEvent) (e : DomainEvent) :
    hydrateVehicleAvailability vt (log ++ [e]) =
      applyVehicleAvailability vt (hydrateVehicleAvailability vt log) e := by
  simp [hydrateVehicleAvailability, List.foldl_append]

theorem hydrateCustomerRentalStatus_append (cid : Email) (log : List DomainEvent)
    (e : DomainEvent) :
    hydrateCustomerRentalStatus cid (log ++ [e]) =
      applyCustomerRentalStatus cid (hydrateCustomerRentalStatus cid log) e := by
  simp [hydrateCustomerRentalStatus, List.foldl_append]

theorem rentedNow_append (v : PlateNumber) (log : List DomainEvent)
    (e : DomainEvent) :
    rentedNow v (log ++ [e]) = rentedStep v (rentedNow v log) e := by
  simp [rentedNow, List.foldl_append]

theorem applyCustomerRegistration_registered (cid c f l : String)
    (s : CustomerRegistration) :
    applyCustomerRegistration cid s (.customerRegistered c f l) =
      if c = cid then { s with registered := true } else s := by
  by_cases h : c = cid <;>
    simp [applyCustomerRegistration, applyIf, DomainEvent.toCustomerEvent,
      CustomerEvent.matchesId, CustomerRegistration.mutate, h]

theorem applyVehicleRegistration_added (vid v : PlateNumber) (t : VehicleType)
    (s : VehicleRegistration) :
    applyVehicleRegistration vid s (.vehicleAdded v t) =
      if v = vid then { s with registered := true } else s := by
  by_cases h : v = vid <;>
    simp [applyVehicleRegistration, applyIf, DomainEvent.toVehicleEvent,
      VehicleEvent.matchesId, VehicleRegistration.mutate, h]

theorem applyVehicleAvailability_added (vt : VehicleType) (v : PlateNumber)
    (t : VehicleType) (s : VehicleAvailability) :
    applyVehicleAvailability vt s (.vehicleAdded v t) =
      if t = vt then
        { s with available_vehicles := hsInsert s.available_vehicles v }
      else s := by
  by_cases h : t = vt <;>
    simp [applyVehicleAvailability, applyIf, DomainEvent.toRentEvent,
      RentEvent.matchesVehicleType, VehicleAvailability.mutate, h]

theorem applyVehicleAvailability_rented (vt : VehicleType) (c : Email)
    (v : PlateNumber) (t : VehicleType) (d : Nat) (s : VehicleAvailability) :
    applyVehicleAvailability vt s (.vehicleRented c v t d) =
      if t = vt then
        { s with available_vehicles := hsRemove s.available_vehicles v }
      else s := by
  by_cases h : t = vt <;>
    simp [applyVehicleAvailability, applyIf, DomainEvent.toRentEvent,
      RentEvent.matchesVehicleType, VehicleAvailability.mutate, h]

theorem applyVehicleAvailability_returned (vt : VehicleType) (c : Email)
    (v : PlateNumber) (t : VehicleType) (d : Nat) (s : VehicleAvailability) :
    applyVehicleAvailability vt s (.vehicleReturned c v t d) =
      if t = vt then
        { s with available_vehicles := hsInsert s.available_vehicles v }
      else s := by
  by_cases h : t = vt <;>
    simp [applyVehicleAvailability, applyIf, DomainEvent.toRentEvent,
      RentEvent.matchesVehicleType, VehicleAvailability.mutate, h]

theorem applyVehicleAvailability_registered (vt : VehicleType) (c f l : String)
    (s : VehicleAvailability) :
    applyVehicleAvailability vt s (.customerRegistered c f l) = s := rfl

theorem applyCustomerRentalStatus_registered (cid c f l : String)
    (s : CustomerRentalStatus) :
    applyCustomerRentalStatus cid s (.customerRegistered c f l) = s := rfl

theorem applyCustomerRentalStatus_added (cid : Email) (v : PlateNumber)
    (t : VehicleType) (s : CustomerRentalStatus) :
    applyCustomerRentalStatus cid s (.vehicleAdded v t) = s := by
  simp [applyCustomerRentalStatus, applyIf, DomainEvent.toRentEvent,
    RentEvent.matchesCustomer, CustomerRentalStatus.mutate]

theorem applyCustomerRentalStatus_rented (cid c : Email) (v : PlateNumber)
    (t : VehicleType) (d : Nat) (s : CustomerRentalStatus) :
    applyCustomerRentalStatus cid s (.vehicleRented c v t d) =
      if c = cid then
        { s with rented_vehicle_id := some v, rented_vehicle_type := some t }
      else s := by
  by_cases h : c = cid <;>
    simp [applyCustomerRentalStatus, applyIf, DomainEvent.toRentEvent,
      RentEvent.matchesCustomer, CustomerRentalStatus.mutate, h]

theorem applyCustomerRentalStatus_returned (cid c : Email) (v : PlateNumber)
    (t : VehicleType) (d : Nat) (s : CustomerRentalStatus) :
    applyCustomerRentalStatus cid s (.vehicleReturned c v t d) =
      if c = cid then
        { s with rented_vehicle_id := none, rented_vehicle_type := none }
      else s := by
  by_cases h : c = cid <;>
    simp [applyCustomerRentalStatus, applyIf, DomainEvent.toRentEvent,
      RentEvent.matchesCustomer, CustomerRentalStatus.mutate, h]

theorem applyCustomerRegistration_added (cid : Email) (v : PlateNumber)
    (t : VehicleType) (s : CustomerRegistration) :
    applyCustomerRegistration cid s (.vehicleAdded v t) = s := rfl

theorem applyCustomerRegistration_rented (cid c : Email) (v : PlateNumber)
    (t : VehicleType) (d : Nat) (s : CustomerRegistration) :
    applyCustomerRegistration cid s (.vehicleRented c v t d) = s := rfl

theorem applyCustomerRegistration_returned (cid c : Email) (v : PlateNumber)
    (t : VehicleType) (d : Nat) (s : CustomerRegistration) :
    applyCustomerRegistration cid s (.vehicleReturned c v t d) = s := rfl

theorem applyVehicleRegistration_registered (vid : PlateNumber) (c f l : String)
    (s : VehicleRegistration) :
    applyVehicleRegistration vid s (.customerRegistered c f l) = s := rfl

theorem applyVehicleRegistration_rented (vid : PlateNumber) (c : Email)
    (v : PlateNumber) (t : VehicleType) (d : Nat) (s : VehicleRegistration) :
    applyVehicleRegistration vid s (.vehicleRented c v t d) = s := rfl

theorem applyVehicleRegistration_returned (vid : PlateNumber) (c : Email)
    (v : PlateNumber) (t : VehicleType) (d : Nat) (s : VehicleRegistration) :
    applyVehicleRegistration vid s (.vehicleReturned c v t d) = s := rfl

theorem mem_hsInsert (x y : PlateNumber) (l : List PlateNumber) :
    x ∈ hsInsert l y ↔ (x ∈ l ∨ x = y) := by
  unfold hsInsert
  by_cases h : y ∈ l
  · simp only [h, if_true]
    constructor
    · exact Or.inl
    · rintro (hx | rfl)
      · exact hx
      · exact h
  · simp [h]

theorem nodup_hsInsert (y : PlateNumber) (l : List PlateNumber)
    (h : l.Nodup) : (hsInsert l y).Nodup := by
  unfold hsInsert
  by_cases hm : y ∈ l
  · simpa [hm]
  · simp [hm, List.nodup_append, h]

theorem foldl_preserve {σ α : Type} (P : σ → Prop) (f : σ → α → σ)
    (hf : ∀ s a, P s → P (f s a)) :
    ∀ (l : List α) (s : σ), P s → P (l.foldl f s) := by
  intro l
  induction l with
  | nil => intro s h; exact h
  | cons a rest ih => intro s h; exact ih _ (hf s a h)

theorem nodup_hydrateVehicleAvailability (vt : VehicleType)
    (log : List DomainEvent) :
    (hydrateVehicleAvailability vt log).available_vehicles.Nodup := by
  have hbase : (VehicleAvailability.new vt).available_vehicles.Nodup := by
    simp [VehicleAvailability.new]
  refine foldl_preserve (fun s : VehicleAvailability => s.available_vehicles.Nodup)
    (applyVehicleAvailability vt) ?_ log (VehicleAvailability.new vt) hbase
  intro s e h
  cases e with
  | customerRegistered c f l => simpa [applyVehicleAvailability_registered]
  | vehicleAdded v t =>
    rw [applyVehicleAvailability_added]
    by_cases ht : t = vt
    · simpa [ht] using nodup_hsInsert v _ h
    · simpa [ht]
  | vehicleRented c v t d =>
    rw [applyVehicleAvailability_rented]
    by_cases ht : t = vt
    · simpa [ht, hsRemove] using h.erase v
    · simpa [ht]
  | vehicleReturned c v t d =>
    rw [applyVehicleAvailability_returned]
    by_cases ht : t = vt
    · simpa [ht] using nodup_hsInsert v _ h
    · simpa [ht]

theorem vehicleRegistration_registered_iff (vid : PlateNumber)
    (log : List DomainEvent) :
    (hydrateVehicleRegistration vid log).registered = true ↔
      ∃ t, DomainEvent.vehicleAdded vid t ∈ log := by
  induction log using List.reverseRecOn with
  | nil => simp [hydrateVehicleRegistration, VehicleRegistration.new]
  | append_singleton l e ih =>
    rw [hydrateVehicleRegistration_append]
    cases e with
    | customerRegistered c f n =>
      rw [applyVehicleRegistration_registered, ih]
      simp
    | vehicleAdded v t =>
      rw [applyVehicleRegistration_added]
      by_cases hv : v = vid
      · subst hv; simp
      · rw [if_neg hv, ih]
        simp [Ne.symm hv]
    | vehicleRented c v t d =>
      rw [applyVehicleRegistration_rented, ih]; simp
    | vehicleReturned c v t d =>
      rw [applyVehicleRegistration_returned, ih]; simp

theorem customerRegistration_registered_iff (cid : Email)
    (log : List DomainEvent) :
    (hydrateCustomerRegistration cid log).registered = true ↔
      ∃ f n, DomainEvent.customerRegistered cid f n ∈ log := by
  induction log using List.reverseRecOn with
  | nil => simp [hydrateCustomerRegistration, CustomerRegistration.new]
  | append_singleton l e ih =>
    rw [hydrateCustomerRegistration_append]
    cases e with
    | customerRegistered c f n =>
      rw [applyCustomerRegistration_registered]
      by_cases hc : c = cid
      · subst hc
        simp only [if_true, List.mem_append, List.mem_singleton]
        constructor
        · intro _; exact ⟨f, n, Or.inr rfl⟩
        · intro _; trivial
      · rw [if_neg hc, ih]
        simp [Ne.symm hc]
    | vehicleAdded v t =>
      rw [applyCustomerRegistration_added, ih]; simp
    | vehicleRented c v t d =>
      rw [applyCustomerRegistration_rented, ih]; simp
    | vehicleReturned c v t d =>
      rw [applyCustomerRegistration_returned, ih]; simp

theorem status_bothSome_apply (cid : Email) (s : CustomerRentalStatus)
    (e : DomainEvent)
    (h : s.rented_vehicle_id.isSome = s.rented_vehicle_type.isSome) :
    (applyCustomerRentalStatus cid s e).rented_vehicle_id.isSome =
      (applyCustomerRentalStatus cid s e).rented_vehicle_type.isSome := by
  cases e with
  | customerRegistered c f l =>
    rw [applyCustomerRentalStatus_registered]; exact h
  | vehicleAdded v t =>
    rw [applyCustomerRentalStatus_added]; exact h
  | vehicleRented c v t d =>
    rw [applyCustomerRentalStatus_rented]
    by_cases hc : c = cid <;> simp [hc, h]
  | vehicleReturned c v t d =>
    rw [applyCustomerRentalStatus_returned]
    by_cases hc : c = cid <;> simp [hc, h]

theorem status_bothSome_hydrate (cid : Email) (log : List DomainEvent) :
    (hydrateCustomerRentalStatus cid log).rented_vehicle_id.isSome =
      (hydrateCustomerRentalStatus cid log).rented_vehicle_type.isSome := by
  refine foldl_preserve
    (fun s : CustomerRentalStatus =>
      s.rented_vehicle_id.isSome = s.rented_vehicle_type.isSome)
    (applyCustomerRentalStatus cid) ?_ log _ (by simp [CustomerRentalStatus.new])
  exact fun s e h => status_bothSome_apply cid s e h

theorem status_bothSome_fold (cid : Email) (ges : List RentEvent) :
    ((ges.foldl CustomerRentalStatus.mutate
        (CustomerRentalStatus.new cid)).rented_vehicle_id).isSome =
      ((ges.foldl CustomerRentalStatus.mutate
        (CustomerRentalStatus.new cid)).rented_vehicle_type).isSome := by
  refine foldl_preserve
    (fun s : CustomerRentalStatus =>
      s.rented_vehicle_id.isSome = s.rented_vehicle_type.isSome)
    CustomerRentalStatus.mutate ?_ ges _ (by simp [CustomerRentalStatus.new])
  intro s ge h
  cases ge <;> simp [CustomerRentalStatus.mutate, h]

theorem updateRentReturn_idem (db : DB) (c : Email) (v : PlateNumber) (d : Nat) :
    updateRentReturn (updateRentReturn db c v d) c v d =
      updateRentReturn db c v d := by
  rcases db with ⟨cu, ve, re⟩
  simp only [updateRentReturn, List.map_map, DB.mk.injEq, true_and]
  apply List.map_congr_left
  intro r _
  by_cases h : r.customer_id = c ∧ r.vehicle_id = v ∧ r.end_date = none
  · simp only [Function.comp_apply, h, and_true, true_and, if_true]
    simp [h.1, h.2.1]
  · simp only [Function.comp_apply, if_neg h, if_neg h]

/-! ## Claim theorems -/

theorem startRent_unregistered_aux (log : List DomainEvent) (cmd : StartRent)
    (now : Nat)
    (h : (hydrateCustomerRegistration cmd.customer_id log).registered = false) :
    StartRent.process cmd (startRentState cmd log) now =
      .error Error.customerNotFound := by
  simp [StartRent.process, startRentState, h]

/-- C8: a `StartRent` whose hydrated `CustomerRegistration` has
`registered = false` fails with `CustomerNotFound` and emits no event,
regardless of the availability and rental-status states the same log
hydrates. -/
theorem startRent_unregistered_fails (log : List DomainEvent) (cmd : StartRent)
    (now : Nat)
    (h : (hydrateCustomerRegistration cmd.customer_id log).registered = false) :
    StartRent.process cmd (startRentState cmd log) now =
      .error Error.customerNotFound :=
  startRent_unregistered_aux log cmd now h

theorem startRent_unregistered_fails_witness :
    (hydrateCustomerRegistration "c1" []).registered = false ∧
    StartRent.process ⟨"c1", VehicleType.car⟩
        (startRentState ⟨"c1", VehicleType.car⟩ []) 0 =
      .error Error.customerNotFound :=
  ⟨by decide,
   startRent_unregistered_fails [] ⟨"c1", VehicleType.car⟩ 0 (by decide)⟩

/-- C7: a second `RegisterVehicle` with the same `vehicle_id` (any
`vehicle_type`), processed against the state hydrated after the first
succeeded, fails with `AlreadyRegisteredVehicle`; a duplicate
`RegisterCustomer` with the same `customer_id` (any names) fails with
`AlreadyRegisteredCustomer`. -/
theorem duplicate_registration_rejected :
    (∀ (log : List DomainEvent) (cmd1 cmd2 : RegisterVehicle)
        (evs : List DomainEvent),
      cmd2.vehicle_id = cmd1.vehicle_id →
      cmd1.process (hydrateVehicleRegistration cmd1.vehicle_id log) = .ok evs →
      cmd2.process (hydrateVehicleRegistration cmd2.vehicle_id (log ++ evs)) =
        .error Error.alreadyRegisteredVehicle) ∧
    (∀ (log : List DomainEvent) (cmd1 cmd2 : RegisterCustomer)
        (evs : List DomainEvent),
      cmd2.customer_id = cmd1.customer_id →
      cmd1.process (hydrateCustomerRegistration cmd1.customer_id log) = .ok evs →
      cmd2.process (hydrateCustomerRegistration cmd2.customer_id (log ++ evs)) =
        .error Error.alreadyRegisteredCustomer) := by
  constructor
  · intro log cmd1 cmd2 evs hid hok
    by_cases hreg : (hydrateVehicleRegistration cmd1.vehicle_id log).registered
    · simp [RegisterVehicle.process, hreg] at hok
    · simp only [RegisterVehicle.process, hreg, if_false, Bool.false_eq_true,
        Except.ok.injEq] at hok
      subst hok
      rw [hydrateVehicleRegistration_append, applyVehicleRegistration_added,
        if_pos hid.symm]
      simp [RegisterVehicle.process]
  · intro log cmd1 cmd2 evs hid hok
    by_cases hreg : (hydrateCustomerRegistration cmd1.customer_id log).registered
    · simp [RegisterCustomer.process, hreg] at hok
    · simp only [RegisterCustomer.process, hreg, if_false, Bool.false_eq_true,
        Except.ok.injEq] at hok
      subst hok
      rw [hydrateCustomerRegistration_append, applyCustomerRegistration_registered,
        if_pos hid.symm]
      simp [RegisterCustomer.process]

theorem duplicate_registration_rejected_witness :
    RegisterVehicle.process ⟨"v1", VehicleType.truck⟩
        (hydrateVehicleRegistration "v1"
          ([] ++ [DomainEvent.vehicleAdded "v1" VehicleType.car])) =
      .error Error.alreadyRegisteredVehicle ∧
    RegisterCustomer.process ⟨"c1", "Ann", "Lee"⟩
        (hydrateCustomerRegistration "c1"
          ([] ++ [DomainEvent.customerRegistered "c1" "Bob" "Solo"])) =
      .error Error.alreadyRegisteredCustomer :=
  ⟨duplicate_registration_rejected.1 [] ⟨"v1", VehicleType.car⟩
      ⟨"v1", VehicleType.truck⟩ [DomainEvent.vehicleAdded "v1" VehicleType.car]
      rfl rfl,
   duplicate_registration_rejected.2 [] ⟨"c1", "Bob", "Solo"⟩
      ⟨"c1", "Ann", "Lee"⟩ [DomainEvent.customerRegistered "c1" "Bob" "Solo"]
      rfl rfl⟩

/-- C1 (counterexample): in the spec's own scenario — `RegisterCustomer(c1)`,
`RegisterVehicle(v1, Car)`, `StartRent(c1, Car)` succeeded — the subsequent
`StartRent(c1, Car)` fails with `NoAvailableVehicles`, not
`RentalInProgress`: the availability check of `StartRent::process` runs
before the rental-in-progress check, and the only car is rented. -/
theorem secondStartRent_scenario_noAvailableVehicles :
    RegisterCustomer.process ⟨"c1", "Bob", "Solo"⟩
        (hydrateCustomerRegistration "c1" []) =
      .ok [DomainEvent.customerRegistered "c1" "Bob" "Solo"] ∧
    RegisterVehicle.process ⟨"v1", VehicleType.car⟩
        (hydrateVehicleRegistration "v1"
          [DomainEvent.customerRegistered "c1" "Bob" "Solo"]) =
      .ok [DomainEvent.vehicleAdded "v1" VehicleType.car] ∧
    StartRent.process ⟨"c1", VehicleType.car⟩
        (startRentState ⟨"c1", VehicleType.car⟩
          [DomainEvent.customerRegistered "c1" "Bob" "Solo",
           DomainEvent.vehicleAdded "v1" VehicleType.car]) 0 =
      .ok [DomainEvent.vehicleRented "c1" "v1" VehicleType.car 0] ∧
    StartRent.process ⟨"c1", VehicleType.car⟩
        (startRentState ⟨"c1", VehicleType.car⟩
          [DomainEvent.customerRegistered "c1" "Bob" "Solo",
           DomainEvent.vehicleAdded "v1" VehicleType.car,
           DomainEvent.vehicleRented "c1" "v1" VehicleType.car 0]) 1 =
      .error Error.noAvailableVehicles ∧
    Error.noAvailableVehicles ≠ Error.rentalInProgress := by
  refine ⟨rfl, rfl, rfl, rfl, by decide⟩

/-- C1 (amended): while a registered customer has a rental outstanding, a
second `StartRent` for that customer always fails: with `RentalInProgress`
when the availability set for the requested `vehicle_type` is non-empty, and
with `NoAvailableVehicles` when it is empty (the availability check precedes
the rental-in-progress check in `StartRent::process`). -/
theorem secondStartRent_fails_while_rental_open (log : List DomainEvent)
    (cmd : StartRent) (now : Nat)
    (hreg : (hydrateCustomerRegistration cmd.customer_id log).registered = true)
    (hopen :
      (hydrateCustomerRentalStatus cmd.customer_id log).rented_vehicle_id.isSome
        = true) :
    StartRent.process cmd (startRentState cmd log) now =
      .error
        (if (hydrateVehicleAvailability cmd.vehicle_type
              log).available_vehicles.isEmpty
         then Error.noAvailableVehicles else Error.rentalInProgress) := by
  simp only [StartRent.process, startRentState, hreg, Bool.not_true,
    Bool.false_eq_true, if_false]
  cases hG : (hydrateVehicleAvailability cmd.vehicle_type
      log).available_vehicles.getLast? with
  | none =>
    have he : (hydrateVehicleAvailability cmd.vehicle_type
        log).available_vehicles = [] := List.getLast?_eq_none_iff.mp hG
    simp [he]
  | some veh =>
    have hne : (hydrateVehicleAvailability cmd.vehicle_type
        log).available_vehicles ≠ [] := by
      intro h
      rw [h] at hG
      exact Option.noConfusion hG
    simp [hopen, hne]

theorem secondStartRent_fails_witness :
    (hydrateCustomerRegistration "c1"
      [DomainEvent.customerRegistered "c1" "Bob" "Solo",
       DomainEvent.vehicleAdded "v1" VehicleType.car,
       DomainEvent.vehicleAdded "v2" VehicleType.car,
       DomainEvent.vehicleRented "c1" "v1" VehicleType.car 0]).registered
      = true ∧
    (hydrateCustomerRentalStatus "c1"
      [DomainEvent.customerRegistered "c1" "Bob" "Solo",
       DomainEvent.vehicleAdded "v1" VehicleType.car,
       DomainEvent.vehicleAdded "v2" VehicleType.car,
       DomainEvent.vehicleRented "c1" "v1" VehicleType.car 0]).rented_vehicle_id.isSome
      = true ∧
    StartRent.process ⟨"c1", VehicleType.car⟩
        (startRentState ⟨"c1", VehicleType.car⟩
          [DomainEvent.customerRegistered "c1" "Bob" "Solo",
           DomainEvent.vehicleAdded "v1" VehicleType.car,
           DomainEvent.vehicleAdded "v2" VehicleType.car,
           DomainEvent.vehicleRented "c1" "v1" VehicleType.car 0]) 1 =
      .error
        (if (hydrateVehicleAvailability VehicleType.car
              [DomainEvent.customerRegistered "c1" "Bob" "Solo",
               DomainEvent.vehicleAdded "v1" VehicleType.car,
               DomainEvent.vehicleAdded "v2" VehicleType.car,
               DomainEvent.vehicleRented "c1" "v1"
                 VehicleType.car 0]).available_vehicles.isEmpty
         then Error.noAvailableVehicles else Error.rentalInProgress) :=
  ⟨by decide, by decide,
   secondStartRent_fails_while_rental_open
     [DomainEvent.customerRegistered "c1" "Bob" "Solo",
      DomainEvent.vehicleAdded "v1" VehicleType.car,
      DomainEvent.vehicleAdded "v2" VehicleType.car,
      DomainEvent.vehicleRented "c1" "v1" VehicleType.car 0]
     ⟨"c1", VehicleType.car⟩ 1 (by decide) (by decide)⟩

/-- C2: delivering the same insert-handled event a second time (the row is
already present, as under at-least-once re-delivery) makes
`ReadModelProjection::handle` panic — the `.unwrap()` of the statement
result hits the primary-key unique violation — for each of the three insert
handlers (`CustomerRegistered`, `VehicleAdded`, `VehicleRented`); the first
delivery succeeds. -/
theorem projection_duplicate_insert_panics :
    ReadModelProjection.handle DB.empty
        (.customerRegistered "c1" "Bob" "Solo") =
      .ok { customer := [{ customer_id := "c1", first_name := "Bob",
                           last_name := "Solo" }],
            vehicle := [], rent := [] } ∧
    ReadModelProjection.handle
        { customer := [{ customer_id := "c1", first_name := "Bob",
                         last_name := "Solo" }],
          vehicle := [], rent := [] }
        (.customerRegistered "c1" "Bob" "Solo") = .panicked ∧
    ReadModelProjection.handle DB.empty (.vehicleAdded "v1" VehicleType.car) =
      .ok { customer := [],
            vehicle := [{ vehicle_id := "v1", vehicle_type := "car" }],
            rent := [] } ∧
    ReadModelProjection.handle
        { customer := [],
          vehicle := [{ vehicle_id := "v1", vehicle_type := "car" }],
          rent := [] }
        (.vehicleAdded "v1" VehicleType.car) = .panicked ∧
    ReadModelProjection.handle DB.empty
        (.vehicleRented "c1" "v1" VehicleType.car 0) =
      .ok { customer := [], vehicle := [],
            rent := [{ customer_id := "c1", vehicle_id := "v1",
                       start_date := 0, end_date := none }] } ∧
    ReadModelProjection.handle
        { customer := [], vehicle := [],
          rent := [{ customer_id := "c1", vehicle_id := "v1",
                     start_date := 0, end_date := none }] }
        (.vehicleRented "c1" "v1" VehicleType.car 5) = .panicked := by
  refine ⟨rfl, rfl, rfl, rfl, rfl, rfl⟩

/-- C4: the `VehicleReturned` projection handler is idempotent: the first
application sets `end_date` on every matching open row (`end_date` null) and
returns success; applying the same event again matches no row, changes
nothing and still returns success, not an error. -/
theorem vehicleReturned_projection_idempotent (db : DB) (c : Email)
    (v : PlateNumber) (vt : VehicleType) (d : Nat) :
    ReadModelProjection.handle db (.vehicleReturned c v vt d) =
      .ok (updateRentReturn db c v d) ∧
    ReadModelProjection.handle (updateRentReturn db c v d)
        (.vehicleReturned c v vt d) =
      .ok (updateRentReturn db c v d) ∧
    (∀ r ∈ db.rent, r.customer_id = c → r.vehicle_id = v → r.end_date = none →
      { r with end_date := some d } ∈ (updateRentReturn db c v d).rent) := by
  refine ⟨rfl, ?_, ?_⟩
  · rw [show ReadModelProjection.handle (updateRentReturn db c v d)
          (.vehicleReturned c v vt d) =
        HandleResult.ok (updateRentReturn (updateRentReturn db c v d) c v d)
        from rfl,
      updateRentReturn_idem]
  · intro r hr h1 h2 h3
    have : (updateRentReturn db c v d).rent = db.rent.map
        (fun r => if r.customer_id = c ∧ r.vehicle_id = v ∧ r.end_date = none
                  then { r with end_date := some d } else r) := rfl
    rw [this]
    exact List.mem_map.mpr ⟨r, hr, by simp [h1, h2, h3]⟩

theorem vehicleReturned_projection_idempotent_witness :
    ReadModelProjection.handle
        { customer := [], vehicle := [],
          rent := [{ customer_id := "c1", vehicle_id := "v1",
                     start_date := 5, end_date := none }] }
        (.vehicleReturned "c1" "v1" VehicleType.car 9) =
      .ok (updateRentReturn
        { customer := [], vehicle := [],
          rent := [{ customer_id := "c1", vehicle_id := "v1",
                     start_date := 5, end_date := none }] } "c1" "v1" 9) ∧
    ReadModelProjection.handle
        (updateRentReturn
          { customer := [], vehicle := [],
            rent := [{ customer_id := "c1", vehicle_id := "v1",
                       start_date := 5, end_date := none }] } "c1" "v1" 9)
        (.vehicleReturned "c1" "v1" VehicleType.car 9) =
      .ok (updateRentReturn
        { customer := [], vehicle := [],
          rent := [{ customer_id := "c1", vehicle_id := "v1",
                     start_date := 5, end_date := none }] } "c1" "v1" 9) ∧
    ({ customer_id := "c1", vehicle_id := "v1", start_date := 5,
       end_date := some 9 } : RentRow) ∈
      (updateRentReturn
        { customer := [], vehicle := [],
          rent := [{ customer_id := "c1", vehicle_id := "v1",
                     start_date := 5, end_date := none }] } "c1" "v1" 9).rent := by
  obtain ⟨h1, h2, h3⟩ := vehicleReturned_projection_idempotent
    { customer := [], vehicle := [],
      rent := [{ customer_id := "c1", vehicle_id := "v1",
                 start_date := 5, end_date := none }] }
    "c1" "v1" VehicleType.car 9
  exact ⟨h1, h2,
    h3 { customer_id := "c1", vehicle_id := "v1", start_date := 5,
         end_date := none } (by simp) rfl rfl rfl⟩

/-- C3: hydrating each of the four state entities from the empty stream
yields its zero-valued state and the "no events" version (`none`); and for
any list of events all matching the entity's stream query, hydrating after
those events are appended yields exactly the left fold of `mutate` over them
(in log order) starting from the zero state. -/
theorem hydration_roundtrip :
    (∀ cid, hydrateCustomerRegistrationV cid [] =
      (CustomerRegistration.new cid, none)) ∧
    (∀ vid, hydrateVehicleRegistrationV vid [] =
      (VehicleRegistration.new vid, none)) ∧
    (∀ vt, hydrateVehicleAvailabilityV vt [] =
      (VehicleAvailability.new vt, none)) ∧
    (∀ cid, hydrateCustomerRentalStatusV cid [] =
      (CustomerRentalStatus.new cid, none)) ∧
    (∀ cid log,
      (∀ e ∈ log, matchesQuery DomainEvent.toCustomerEvent
        (CustomerEvent.matchesId cid) e = true) →
      (hydrateCustomerRegistrationV cid log).1 =
        (log.filterMap DomainEvent.toCustomerEvent).foldl
          CustomerRegistration.mutate (CustomerRegistration.new cid)) ∧
    (∀ vid log,
      (∀ e ∈ log, matchesQuery DomainEvent.toVehicleEvent
        (VehicleEvent.matchesId vid) e = true) →
      (hydrateVehicleRegistrationV vid log).1 =
        (log.filterMap DomainEvent.toVehicleEvent).foldl
          VehicleRegistration.mutate (VehicleRegistration.new vid)) ∧
    (∀ vt log,
      (∀ e ∈ log, matchesQuery DomainEvent.toRentEvent
        (RentEvent.matchesVehicleType vt) e = true) →
      (hydrateVehicleAvailabilityV vt log).1 =
        (log.filterMap DomainEvent.toRentEvent).foldl
          VehicleAvailability.mutate (VehicleAvailability.new vt)) ∧
    (∀ cid log,
      (∀ e ∈ log, matchesQuery DomainEvent.toRentEvent
        (RentEvent.matchesCustomer cid) e = true) →
      (hydrateCustomerRentalStatusV cid log).1 =
        (log.filterMap DomainEvent.toRentEvent).foldl
          CustomerRentalStatus.mutate (CustomerRentalStatus.new cid)) := by
  refine ⟨fun _ => rfl, fun _ => rfl, fun _ => rfl, fun _ => rfl,
    ?_, ?_, ?_, ?_⟩
  · intro cid log hall
    exact (hydrateGo_fst _ _ _ log 0 _ none).trans
      (foldl_applyIf_of_all_match _ _ _ log _ hall)
  · intro vid log hall
    exact (hydrateGo_fst _ _ _ log 0 _ none).trans
      (foldl_applyIf_of_all_match _ _ _ log _ hall)
  · intro vt log hall
    exact (hydrateGo_fst _ _ _ log 0 _ none).trans
      (foldl_applyIf_of_all_match _ _ _ log _ hall)
  · intro cid log hall
    exact (hydrateGo_fst _ _ _ log 0 _ none).trans
      (foldl_applyIf_of_all_match _ _ _ log _ hall)

theorem hydration_roundtrip_witness :
    (hydrateCustomerRegistrationV "c1"
        [DomainEvent.customerRegistered "c1" "Bob" "Solo"]).1 =
      ([DomainEvent.customerRegistered "c1" "Bob" "Solo"].filterMap
          DomainEvent.toCustomerEvent).foldl
        CustomerRegistration.mutate (CustomerRegistration.new "c1") ∧
    (hydrateVehicleRegistrationV "v1"
        [DomainEvent.vehicleAdded "v1" VehicleType.car]).1 =
      ([DomainEvent.vehicleAdded "v1" VehicleType.car].filterMap
          DomainEvent.toVehicleEvent).foldl
        VehicleRegistration.mutate (VehicleRegistration.new "v1") ∧
    (hydrateVehicleAvailabilityV VehicleType.car
        [DomainEvent.vehicleAdded "v1" VehicleType.car,
         DomainEvent.vehicleRented "c1" "v1" VehicleType.car 0]).1 =
      ([DomainEvent.vehicleAdded "v1" VehicleType.car,
        DomainEvent.vehicleRented "c1" "v1" VehicleType.car 0].filterMap
          DomainEvent.toRentEvent).foldl
        VehicleAvailability.mutate (VehicleAvailability.new VehicleType.car) ∧
    (hydrateCustomerRentalStatusV "c1"
        [DomainEvent.vehicleRented "c1" "v1" VehicleType.car 0,
         DomainEvent.vehicleReturned "c1" "v1" VehicleType.car 3]).1 =
      ([DomainEvent.vehicleRented "c1" "v1" VehicleType.car 0,
        DomainEvent.vehicleReturned "c1" "v1" VehicleType.car 3].filterMap
          DomainEvent.toRentEvent).foldl
        CustomerRentalStatus.mutate (CustomerRentalStatus.new "c1") := by
  obtain ⟨-, -, -, -, h5, h6, h7, h8⟩ := hydration_roundtrip
  exact ⟨h5 "c1" _ (by decide), h6 "v1" _ (by decide),
    h7 VehicleType.car _ (by decide), h8 "c1" _ (by decide)⟩

/-- C9: `EndRent::process` against the hydrated `CustomerRentalStatus`:
with no open rental it fails with `RentalNotFound`; with an open rental it
succeeds, emitting exactly one `VehicleReturned` carrying the command's
`customer_id` and the state's rented vehicle id and type, and folding that
event through `mutate` clears the rental status (back to no-rental) and puts
the vehicle back into any `VehicleAvailability` state's available set. -/
theorem endRent_process_spec (log : List DomainEvent) (cmd : EndRent)
    (now : Nat) :
    ((endRentState cmd log).rented_vehicle_id = none →
      cmd.process (endRentState cmd log) now =
        some (.error Error.rentalNotFound)) ∧
    (∀ v, (endRentState cmd log).rented_vehicle_id = some v →
      ∃ vt, (endRentState cmd log).rented_vehicle_type = some vt ∧
        cmd.process (endRentState cmd log) now =
          some (.ok [DomainEvent.vehicleReturned cmd.customer_id v vt now]) ∧
        ((endRentState cmd log).mutate
            (RentEvent.vehicleReturned cmd.customer_id v vt
              now)).rented_vehicle_id = none ∧
        ((endRentState cmd log).mutate
            (RentEvent.vehicleReturned cmd.customer_id v vt
              now)).rented_vehicle_type = none ∧
        (∀ av : VehicleAvailability,
          v ∈ (av.mutate (RentEvent.vehicleReturned cmd.customer_id v vt
                now)).available_vehicles)) := by
  constructor
  · intro h
    simp [EndRent.process, h]
  · intro v hv
    have hb : (endRentState cmd log).rented_vehicle_id.isSome =
        (endRentState cmd log).rented_vehicle_type.isSome :=
      status_bothSome_hydrate cmd.customer_id log
    rw [hv] at hb
    have hsome : (endRentState cmd log).rented_vehicle_type.isSome = true := by
      rw [← hb]
      rfl
    obtain ⟨vt, hvt⟩ := Option.isSome_iff_exists.mp hsome
    refine ⟨vt, hvt, ?_, ?_, ?_, ?_⟩
    · simp [EndRent.process, hv, hvt]
    · simp [CustomerRentalStatus.mutate]
    · simp [CustomerRentalStatus.mutate]
    · intro av
      simp [VehicleAvailability.mutate, mem_hsInsert]

theorem endRent_process_spec_witness :
    EndRent.process ⟨"c1"⟩ (endRentState ⟨"c1"⟩ []) 7 =
      some (.error Error.rentalNotFound) ∧
    EndRent.process ⟨"c1"⟩
        (endRentState ⟨"c1"⟩
          [DomainEvent.vehicleRented "c1" "v1" VehicleType.car 0]) 7 =
      some (.ok [DomainEvent.vehicleReturned "c1" "v1" VehicleType.car 7]) := by
  refine ⟨(endRent_process_spec [] ⟨"c1"⟩ 7).1 (by decide), ?_⟩
  obtain ⟨vt, hvt, hp, -⟩ :=
    (endRent_process_spec
      [DomainEvent.vehicleRented "c1" "v1" VehicleType.car 0] ⟨"c1"⟩ 7).2
      "v1" (by decide)
  have : vt = VehicleType.car := by
    have h2 : some vt = some VehicleType.car := hvt.symm.trans (by decide)
    exact Option.some.inj h2
  rw [this] at hp
  exact hp

/-- C10: the `state.rented_vehicle_type.as_ref().unwrap()` in
`EndRent::process` never panics: any `CustomerRentalStatus` obtained by
folding `RentEvent`s from the zero state has `rented_vehicle_type` set
whenever `rented_vehicle_id` is, so `process` never reaches the modelled
panic (`none`) outcome. -/
theorem endRent_unwrap_never_panics (cid c2 : Email) (ges : List RentEvent)
    (now : Nat) :
    (((ges.foldl CustomerRentalStatus.mutate
        (CustomerRentalStatus.new cid)).rented_vehicle_id).isSome = true →
      ((ges.foldl CustomerRentalStatus.mutate
        (CustomerRentalStatus.new cid)).rented_vehicle_type).isSome = true) ∧
    EndRent.process ⟨c2⟩
      (ges.foldl CustomerRentalStatus.mutate (CustomerRentalStatus.new cid))
      now ≠ none := by
  have hb := status_bothSome_fold cid ges
  constructor
  · intro h
    rw [← hb]
    exact h
  · cases hid : (ges.foldl CustomerRentalStatus.mutate
        (CustomerRentalStatus.new cid)).rented_vehicle_id with
    | none => simp [EndRent.process, hid]
    | some v =>
      rw [hid] at hb
      have hsome : (ges.foldl CustomerRentalStatus.mutate
          (CustomerRentalStatus.new cid)).rented_vehicle_type.isSome = true := by
        rw [← hb]
        rfl
      obtain ⟨vt, hvt⟩ := Option.isSome_iff_exists.mp hsome
      simp [EndRent.process, hid, hvt]

theorem endRent_unwrap_never_panics_witness :
    (([RentEvent.vehicleRented "c1" "v1" VehicleType.car 0].foldl
        CustomerRentalStatus.mutate
        (CustomerRentalStatus.new "c1")).rented_vehicle_type).isSome = true ∧
    EndRent.process ⟨"c1"⟩
      ([RentEvent.vehicleRented "c1" "v1" VehicleType.car 0].foldl
        CustomerRentalStatus.mutate (CustomerRentalStatus.new "c1")) 7
      ≠ none :=
  ⟨(endRent_unwrap_never_panics "c1" "c1"
      [RentEvent.vehicleRented "c1" "v1" VehicleType.car 0] 7).1 (by decide),
   (endRent_unwrap_never_panics "c1" "c1"
      [RentEvent.vehicleRented "c1" "v1" VehicleType.car 0] 7).2⟩

/-! ## Lemmas: single-event effects on availability, status, and rentedNow -/

theorem avail_append_registered (vt : VehicleType) (c f n : String)
    (log : List DomainEvent) :
    hydrateVehicleAvailability vt (log ++ [.customerRegistered c f n]) =
      hydrateVehicleAvailability vt log := by
  rw [hydrateVehicleAvailability_append, applyVehicleAvailability_registered]

theorem avail_append_added (vt : VehicleType) (v0 : PlateNumber)
    (t0 : VehicleType) (log : List DomainEvent) :
    (hydrateVehicleAvailability vt
        (log ++ [.vehicleAdded v0 t0])).available_vehicles =
      if t0 = vt then
        hsInsert (hydrateVehicleAvailability vt log).available_vehicles v0
      else (hydrateVehicleAvailability vt log).available_vehicles := by
  rw [hydrateVehicleAvailability_append, applyVehicleAvailability_added]
  by_cases h : t0 = vt <;> simp [h]

theorem avail_append_rented (vt : VehicleType) (c : Email) (v0 : PlateNumber)
    (t0 : VehicleType) (d : Nat) (log : List DomainEvent) :
    (hydrateVehicleAvailability vt
        (log ++ [.vehicleRented c v0 t0 d])).available_vehicles =
      if t0 = vt then
        hsRemove (hydrateVehicleAvailability vt log).available_vehicles v0
      else (hydrateVehicleAvailability vt log).available_vehicles := by
  rw [hydrateVehicleAvailability_append, applyVehicleAvailability_rented]
  by_cases h : t0 = vt <;> simp [h]

theorem avail_append_returned (vt : VehicleType) (c : Email) (v0 : PlateNumber)
    (t0 : VehicleType) (d : Nat) (log : List DomainEvent) :
    (hydrateVehicleAvailability vt
        (log ++ [.vehicleReturned c v0 t0 d])).available_vehicles =
      if t0 = vt then
        hsInsert (hydrateVehicleAvailability vt log).available_vehicles v0
      else (hydrateVehicleAvailability vt log).available_vehicles := by
  rw [hydrateVehicleAvailability_append, applyVehicleAvailability_returned]
  by_cases h : t0 = vt <;> simp [h]

theorem status_append_registered (cid : Email) (c f n : String)
    (log : List DomainEvent) :
    hydrateCustomerRentalStatus cid (log ++ [.customerRegistered c f n]) =
      hydrateCustomerRentalStatus cid log := by
  rw [hydrateCustomerRentalStatus_append, applyCustomerRentalStatus_registered]

theorem status_append_added (cid : Email) (v0 : PlateNumber) (t0 : VehicleType)
    (log : List DomainEvent) :
    hydrateCustomerRentalStatus cid (log ++ [.vehicleAdded v0 t0]) =
      hydrateCustomerRentalStatus cid log := by
  rw [hydrateCustomerRentalStatus_append, applyCustomerRentalStatus_added]

theorem status_append_rented (cid c : Email) (v0 : PlateNumber)
    (t0 : VehicleType) (d : Nat) (log : List DomainEvent) :
    hydrateCustomerRentalStatus cid (log ++ [.vehicleRented c v0 t0 d]) =
      if c = cid then
        { hydrateCustomerRentalStatus cid log with
            rented_vehicle_id := some v0, rented_vehicle_type := some t0 }
      else hydrateCustomerRentalStatus cid log := by
  rw [hydrateCustomerRentalStatus_append, applyCustomerRentalStatus_rented]

theorem status_append_returned (cid c : Email) (v0 : PlateNumber)
    (t0 : VehicleType) (d : Nat) (log : List DomainEvent) :
    hydrateCustomerRentalStatus cid (log ++ [.vehicleReturned c v0 t0 d]) =
      if c = cid then
        { hydrateCustomerRentalStatus cid log with
            rented_vehicle_id := none, rented_vehicle_type := none }
      else hydrateCustomerRentalStatus cid log := by
  rw [hydrateCustomerRentalStatus_append, applyCustomerRentalStatus_returned]

theorem rentedNow_append_registered (v : PlateNumber) (c f n : String)
    (log : List DomainEvent) :
    rentedNow v (log ++ [.customerRegistered c f n]) = rentedNow v log := by
  rw [rentedNow_append]
  rfl

theorem rentedNow_append_added (v v0 : PlateNumber) (t0 : VehicleType)
    (log : List DomainEvent) :
    rentedNow v (log ++ [.vehicleAdded v0 t0]) = rentedNow v log := by
  rw [rentedNow_append]
  rfl

theorem rentedNow_append_rented (v : PlateNumber) (c : Email)
    (v0 : PlateNumber) (t0 : VehicleType) (d : Nat) (log : List DomainEvent) :
    rentedNow v (log ++ [.vehicleRented c v0 t0 d]) =
      if v0 = v then true else rentedNow v log := by
  rw [rentedNow_append]
  rfl

theorem rentedNow_append_returned (v : PlateNumber) (c : Email)
    (v0 : PlateNumber) (t0 : VehicleType) (d : Nat) (log : List DomainEvent) :
    rentedNow v (log ++ [.vehicleReturned c v0 t0 d]) =
      if v0 = v then false else rentedNow v log := by
  rw [rentedNow_append]
  rfl

/-! ## The reachable-log invariant -/

theorem rentalInvariant_nil : RentalInvariant [] := by
  refine ⟨?_, ?_, ?_, ?_, ?_⟩
  · intro v vt
    simp [hydrateVehicleAvailability, VehicleAvailability.new]
  · intro v h
    simp [rentedNow] at h
  · intro v a b ha _
    simp at ha
  · intro c v vt hid _
    simp [hydrateCustomerRentalStatus, CustomerRentalStatus.new] at hid
  · intro c c2 v hid _
    simp [hydrateCustomerRentalStatus, CustomerRentalStatus.new] at hid

theorem rentalInvariant_step_registered (log : List DomainEvent)
    (c f n : String) (h : RentalInvariant log) :
    RentalInvariant (log ++ [DomainEvent.customerRegistered c f n]) := by
  obtain ⟨h1, h2, h3, h4, h5⟩ := h
  refine ⟨?_, ?_, ?_, ?_, ?_⟩
  · intro v vt
    rw [avail_append_registered, rentedNow_append_registered]
    simp [h1 v vt]
  · intro v
    rw [rentedNow_append_registered]
    intro hr
    obtain ⟨vt, hvt⟩ := h2 v hr
    exact ⟨vt, by simp [hvt]⟩
  · intro v a b ha hb
    simp only [List.mem_append, List.mem_singleton] at ha hb
    rcases ha with ha | ha
    · rcases hb with hb | hb
      · exact h3 v a b ha hb
      · exact absurd hb (by simp)
    · exact absurd ha (by simp)
  · intro c2 v vt hid hty
    rw [status_append_registered] at hid hty
    obtain ⟨hadd, hrent⟩ := h4 c2 v vt hid hty
    exact ⟨by simp [hadd], by rw [rentedNow_append_registered]; exact hrent⟩
  · intro ca cb v hida hidb
    rw [status_append_registered] at hida hidb
    exact h5 ca cb v hida hidb

theorem rentalInvariant_step_added (log : List DomainEvent) (v0 : PlateNumber)
    (t0 : VehicleType) (h : RentalInvariant log)
    (hnew : ∀ t, DomainEvent.vehicleAdded v0 t ∉ log) :
    RentalInvariant (log ++ [DomainEvent.vehicleAdded v0 t0]) := by
  obtain ⟨h1, h2, h3, h4, h5⟩ := h
  have hnr : rentedNow v0 log = false := by
    cases hb : rentedNow v0 log
    · rfl
    · obtain ⟨t, ht⟩ := h2 v0 hb
      exact absurd ht (hnew t)
  refine ⟨?_, ?_, ?_, ?_, ?_⟩
  · intro v vt
    rw [avail_append_added, rentedNow_append_added]
    by_cases hteq : t0 = vt
    · rw [if_pos hteq]
      rw [mem_hsInsert]
      by_cases hveq : v = v0
      · subst hveq
        subst hteq
        simp [hnr]
      · simp only [List.mem_append, List.mem_singleton]
        simp [hveq, h1 v vt]
    · rw [if_neg hteq]
      simp only [List.mem_append, List.mem_singleton]
      simp [h1 v vt, Ne.symm hteq]
  · intro v
    rw [rentedNow_append_added]
    intro hr
    obtain ⟨vt, hvt⟩ := h2 v hr
    exact ⟨vt, by simp [hvt]⟩
  · intro v a b ha hb
    simp only [List.mem_append, List.mem_singleton,
      DomainEvent.vehicleAdded.injEq] at ha hb
    rcases ha with ha | ⟨rfl, rfl⟩
    · rcases hb with hb | ⟨rfl, rfl⟩
      · exact h3 v a b ha hb
      · exact absurd ha (hnew a)
    · rcases hb with hb | ⟨-, rfl⟩
      · exact absurd hb (hnew b)
      · rfl
  · intro c2 v vt hid hty
    rw [status_append_added] at hid hty
    obtain ⟨hadd, hrent⟩ := h4 c2 v vt hid hty
    exact ⟨by simp [hadd], by rw [rentedNow_append_added]; exact hrent⟩
  · intro ca cb v hida hidb
    rw [status_append_added] at hida hidb
    exact h5 ca cb v hida hidb

theorem rentalInvariant_step_rented (log : List DomainEvent) (c0 : Email)
    (v0 : PlateNumber) (t0 : VehicleType) (d : Nat) (h : RentalInvariant log)
    (hmem : v0 ∈ (hydrateVehicleAvailability t0 log).available_vehicles) :
    RentalInvariant (log ++ [DomainEvent.vehicleRented c0 v0 t0 d]) := by
  obtain ⟨h1, h2, h3, h4, h5⟩ := h
  obtain ⟨hadd0, hnr0⟩ := (h1 v0 t0).mp hmem
  refine ⟨?_, ?_, ?_, ?_, ?_⟩
  · intro v vt
    rw [avail_append_rented, rentedNow_append_rented]
    by_cases hteq : t0 = vt
    · rw [if_pos hteq]
      have hnd := nodup_hydrateVehicleAvailability vt log
      rw [show hsRemove (hydrateVehicleAvailability vt log).available_vehicles
            v0 =
          ((hydrateVehicleAvailability vt log).available_vehicles).erase v0
          from rfl,
        List.Nodup.mem_erase_iff hnd]
      by_cases hveq : v = v0
      · subst hveq
        simp
      · rw [if_neg (Ne.symm hveq)]
        simp only [List.mem_append, List.mem_singleton]
        simp [hveq, h1 v vt]
    · rw [if_neg hteq]
      by_cases hveq : v = v0
      · subst hveq
        constructor
        · intro hin
          have hvv := (h1 v vt).mp hin
          exact absurd (h3 v vt t0 hvv.1 hadd0) (Ne.symm hteq)
        · rintro ⟨-, hfalse⟩
          rw [if_pos rfl] at hfalse
          exact absurd hfalse (by simp)
      · rw [if_neg (Ne.symm hveq)]
        simp only [List.mem_append, List.mem_singleton]
        simp [h1 v vt]
  · intro v
    rw [rentedNow_append_rented]
    by_cases hveq : v0 = v
    · subst hveq
      intro _
      exact ⟨t0, by simp [hadd0]⟩
    · rw [if_neg hveq]
      intro hr
      obtain ⟨vt, hvt⟩ := h2 v hr
      exact ⟨vt, by simp [hvt]⟩
  · intro v a b ha hb
    simp only [List.mem_append, List.mem_singleton] at ha hb
    rcases ha with ha | ha
    · rcases hb with hb | hb
      · exact h3 v a b ha hb
      · exact absurd hb (by simp)
    · exact absurd ha (by simp)
  · intro c2 v vt hid hty
    rw [status_append_rented] at hid hty
    by_cases hceq : c0 = c2
    · rw [if_pos hceq] at hid hty
      simp only [Option.some.injEq] at hid hty
      subst hid
      subst hty
      refine ⟨by simp [hadd0], ?_⟩
      rw [rentedNow_append_rented]
      simp
    · rw [if_neg hceq] at hid hty
      obtain ⟨hadd, hrent⟩ := h4 c2 v vt hid hty
      refine ⟨by simp [hadd], ?_⟩
      rw [rentedNow_append_rented]
      by_cases hveq : v0 = v
      · subst hveq
        exact absurd hrent (by simp [hnr0])
      · rw [if_neg hveq]
        exact hrent
  · intro ca cb v hida hidb
    rw [status_append_rented] at hida hidb
    by_cases hca : c0 = ca
    · by_cases hcb : c0 = cb
      · exact hca.symm.trans hcb
      · rw [if_pos hca] at hida
        rw [if_neg hcb] at hidb
        simp only [Option.some.injEq] at hida
        subst hida
        have hb := status_bothSome_hydrate cb log
        rw [hidb] at hb
        have hsome : (hydrateCustomerRentalStatus cb
            log).rented_vehicle_type.isSome = true := by
          rw [← hb]
          rfl
        obtain ⟨vt2, hvt2⟩ := Option.isSome_iff_exists.mp hsome
        obtain ⟨-, hrent2⟩ := h4 cb v0 vt2 hidb hvt2
        exact absurd hrent2 (by simp [hnr0])
    · by_cases hcb : c0 = cb
      · rw [if_neg hca] at hida
        rw [if_pos hcb] at hidb
        simp only [Option.some.injEq] at hidb
        subst hidb
        have hb := status_bothSome_hydrate ca log
        rw [hida] at hb
        have hsome : (hydrateCustomerRentalStatus ca
            log).rented_vehicle_type.isSome = true := by
          rw [← hb]
          rfl
        obtain ⟨vt2, hvt2⟩ := Option.isSome_iff_exists.mp hsome
        obtain ⟨-, hrent2⟩ := h4 ca v0 vt2 hida hvt2
        exact absurd hrent2 (by simp [hnr0])
      · rw [if_neg hca] at hida
        rw [if_neg hcb] at hidb
        exact h5 ca cb v hida hidb

theorem rentalInvariant_step_returned (log : List DomainEvent) (c0 : Email)
    (v0 : PlateNumber) (t0 : VehicleType) (d : Nat) (h : RentalInvariant log)
    (hid0 : (hydrateCustomerRentalStatus c0 log).rented_vehicle_id = some v0)
    (hty0 : (hydrateCustomerRentalStatus c0 log).rented_vehicle_type = some t0) :
    RentalInvariant (log ++ [DomainEvent.vehicleReturned c0 v0 t0 d]) := by
  obtain ⟨h1, h2, h3, h4, h5⟩ := h
  obtain ⟨hadd0, hr0⟩ := h4 c0 v0 t0 hid0 hty0
  refine ⟨?_, ?_, ?_, ?_, ?_⟩
  · intro v vt
    rw [avail_append_returned, rentedNow_append_returned]
    by_cases hteq : t0 = vt
    · rw [if_pos hteq]
      rw [mem_hsInsert]
      by_cases hveq : v = v0
      · subst hveq
        subst hteq
        simp [hadd0]
      · rw [if_neg (Ne.symm hveq)]
        simp only [List.mem_append, List.mem_singleton]
        simp [hveq, h1 v vt]
    · rw [if_neg hteq]
      by_cases hveq : v = v0
      · subst hveq
        constructor
        · intro hin
          have hvv := (h1 v vt).mp hin
          exact absurd (h3 v vt t0 hvv.1 hadd0) (Ne.symm hteq)
        · rintro ⟨hmem2, -⟩
          simp only [List.mem_append, List.mem_singleton] at hmem2
          rcases hmem2 with hmem2 | hmem2
          · exact absurd (h3 v vt t0 hmem2 hadd0) (Ne.symm hteq)
          · exact absurd hmem2 (by simp)
      · rw [if_neg (Ne.symm hveq)]
        simp only [List.mem_append, List.mem_singleton]
        simp [h1 v vt]
  · intro v
    rw [rentedNow_append_returned]
    by_cases hveq : v0 = v
    · rw [if_pos hveq]
      intro hr
      exact absurd hr (by simp)
    · rw [if_neg hveq]
      intro hr
      obtain ⟨vt, hvt⟩ := h2 v hr
      exact ⟨vt, by simp [hvt]⟩
  · intro v a b ha hb
    simp only [List.mem_append, List.mem_singleton] at ha hb
    rcases ha with ha | ha
    · rcases hb with hb | hb
      · exact h3 v a b ha hb
      · exact absurd hb (by simp)
    · exact absurd ha (by simp)
  · intro c2 v vt hid hty
    rw [status_append_returned] at hid hty
    by_cases hceq : c0 = c2
    · rw [if_pos hceq] at hid
      exact absurd hid (by simp)
    · rw [if_neg hceq] at hid hty
      obtain ⟨hadd, hrent⟩ := h4 c2 v vt hid hty
      refine ⟨by simp [hadd], ?_⟩
      rw [rentedNow_append_returned]
      by_cases hveq : v0 = v
      · subst hveq
        exact absurd (h5 c0 c2 v0 hid0 hid) hceq
      · rw [if_neg hveq]
        exact hrent
  · intro ca cb v hida hidb
    rw [status_append_returned] at hida hidb
    by_cases hca : c0 = ca
    · rw [if_pos hca] at hida
      exact absurd hida (by simp)
    · by_cases hcb : c0 = cb
      · rw [if_pos hcb] at hidb
        exact absurd hidb (by simp)
      · rw [if_neg hca] at hida
        rw [if_neg hcb] at hidb
        exact h5 ca cb v hida hidb

theorem reachable_rentalInvariant (log : List DomainEvent)
    (h : Reachable log) : RentalInvariant log := by
  induction h with
  | nil => exact rentalInvariant_nil
  | registerVehicle log cmd evs hr hp ih =>
    by_cases hreg : (hydrateVehicleRegistration cmd.vehicle_id log).registered
    · simp [RegisterVehicle.process, hreg] at hp
    · simp only [RegisterVehicle.process, hreg, if_false, Bool.false_eq_true,
        Except.ok.injEq] at hp
      subst hp
      refine rentalInvariant_step_added log cmd.vehicle_id cmd.vehicle_type ih ?_
      intro t hmemt
      exact hreg ((vehicleRegistration_registered_iff cmd.vehicle_id log).mpr
        ⟨t, hmemt⟩)
  | registerCustomer log cmd evs hr hp ih =>
    by_cases hreg : (hydrateCustomerRegistration cmd.customer_id log).registered
    · simp [RegisterCustomer.process, hreg] at hp
    · simp only [RegisterCustomer.process, hreg, if_false, Bool.false_eq_true,
        Except.ok.injEq] at hp
      subst hp
      exact rentalInvariant_step_registered log cmd.customer_id cmd.first_name
        cmd.last_name ih
  | startRent log cmd now evs hr hp ih =>
    by_cases hreg : (hydrateCustomerRegistration cmd.customer_id log).registered
    · cases hG : (hydrateVehicleAvailability cmd.vehicle_type
          log).available_vehicles.getLast? with
      | none =>
        simp [StartRent.process, startRentState, hreg, hG] at hp
      | some veh =>
        by_cases hopen : (hydrateCustomerRentalStatus cmd.customer_id
            log).rented_vehicle_id.isSome
        · simp [StartRent.process, startRentState, hreg, hG, hopen] at hp
        · simp only [StartRent.process, startRentState, hreg, Bool.not_true,
            Bool.false_eq_true, if_false, hG, hopen, Except.ok.injEq] at hp
          subst hp
          exact rentalInvariant_step_rented log cmd.customer_id veh
            cmd.vehicle_type now ih (List.mem_of_getLast?_eq_some hG)
    · have hfalse : (hydrateCustomerRegistration cmd.customer_id
          log).registered = false := by
        cases hb : (hydrateCustomerRegistration cmd.customer_id log).registered
        · rfl
        · exact absurd hb hreg
      rw [startRent_unregistered_aux log cmd now hfalse] at hp
      exact Except.noConfusion hp
  | endRent log cmd now evs hr hp ih =>
    cases hid : (endRentState cmd log).rented_vehicle_id with
    | none => simp [EndRent.process, hid] at hp
    | some v =>
      cases hty : (endRentState cmd log).rented_vehicle_type with
      | none => simp [EndRent.process, hid, hty] at hp
      | some vt =>
        simp only [EndRent.process, hid, hty, Option.some.injEq,
          Except.ok.injEq] at hp
        subst hp
        exact rentalInvariant_step_returned log cmd.customer_id v vt now ih hid
          hty

/-! ## Bridging the scan-based and the positional rental predicates -/

theorem snoc_eq_append_cons {α : Type} (log l1 l2 : List α) (e r : α)
    (h : log ++ [e] = l1 ++ r :: l2) :
    (l1 = log ∧ r = e ∧ l2 = []) ∨
    (∃ l3, l2 = l3 ++ [e] ∧ log = l1 ++ r :: l3) := by
  rcases List.eq_nil_or_concat l2 with rfl | ⟨l3, b, rfl⟩
  · left
    have h2 := List.append_inj' h (by rfl)
    refine ⟨h2.1.symm, ?_, rfl⟩
    injection h2.2 with he htail
    exact he.symm
  · right
    rw [List.concat_eq_append] at h ⊢
    have h2 : log ++ [e] = (l1 ++ r :: l3) ++ [b] := by
      rw [h]
      simp
    have h3 := List.append_inj' h2 (by rfl)
    injection h3.2 with he htail
    subst he
    exact ⟨l3, rfl, h3.1⟩

theorem rentedNow_false_iff_allRentsClosed (v : PlateNumber) :
    ∀ log, rentedNow v log = false ↔ allRentsClosed v log := by
  intro log
  induction log using List.reverseRecOn with
  | nil =>
    constructor
    · intro _ l1 c vt t l2 hdec
      have hlen := congrArg List.length hdec
      simp at hlen
      omega
    · intro _
      rfl
  | append_singleton log e ih =>
    cases e with
    | customerRegistered c2 f n =>
      rw [rentedNow_append_registered]
      constructor
      · intro hF l1 c3 vt3 t3 l2 hdec
        rcases snoc_eq_append_cons _ _ _ _ _ hdec with ⟨-, hre, -⟩ |
            ⟨l3, rfl, hlog⟩
        · exact absurd hre (by simp)
        · obtain ⟨c4, vt4, t4, hmem⟩ := (ih.mp hF) l1 c3 vt3 t3 l3 hlog
          exact ⟨c4, vt4, t4, by simp [hmem]⟩
      · intro hC
        apply ih.mpr
        intro l1 c3 vt3 t3 l2 hdec
        obtain ⟨c4, vt4, t4, hmem⟩ := hC l1 c3 vt3 t3
          (l2 ++ [DomainEvent.customerRegistered c2 f n]) (by rw [hdec]; simp)
        simp only [List.mem_append, List.mem_singleton] at hmem
        rcases hmem with hmem | hmem
        · exact ⟨c4, vt4, t4, hmem⟩
        · exact absurd hmem (by simp)
    | vehicleAdded v2 t2 =>
      rw [rentedNow_append_added]
      constructor
      · intro hF l1 c3 vt3 t3 l2 hdec
        rcases snoc_eq_append_cons _ _ _ _ _ hdec with ⟨-, hre, -⟩ |
            ⟨l3, rfl, hlog⟩
        · exact absurd hre (by simp)
        · obtain ⟨c4, vt4, t4, hmem⟩ := (ih.mp hF) l1 c3 vt3 t3 l3 hlog
          exact ⟨c4, vt4, t4, by simp [hmem]⟩
      · intro hC
        apply ih.mpr
        intro l1 c3 vt3 t3 l2 hdec
        obtain ⟨c4, vt4, t4, hmem⟩ := hC l1 c3 vt3 t3
          (l2 ++ [DomainEvent.vehicleAdded v2 t2]) (by rw [hdec]; simp)
        simp only [List.mem_append, List.mem_singleton] at hmem
        rcases hmem with hmem | hmem
        · exact ⟨c4, vt4, t4, hmem⟩
        · exact absurd hmem (by simp)
    | vehicleRented c2 v2 vt2 t2 =>
      rw [rentedNow_append_rented]
      by_cases hv : v2 = v
      · rw [if_pos hv]
        subst hv
        constructor
        · intro h
          exact absurd h (by simp)
        · intro hC
          obtain ⟨c4, vt4, t4, hmem⟩ := hC log c2 vt2 t2 [] rfl
          exact absurd hmem (by simp)
      · rw [if_neg hv]
        constructor
        · intro hF l1 c3 vt3 t3 l2 hdec
          rcases snoc_eq_append_cons _ _ _ _ _ hdec with ⟨-, hre, -⟩ |
              ⟨l3, rfl, hlog⟩
          · rw [DomainEvent.vehicleRented.injEq] at hre
            exact absurd hre.2.1.symm hv
          · obtain ⟨c4, vt4, t4, hmem⟩ := (ih.mp hF) l1 c3 vt3 t3 l3 hlog
            exact ⟨c4, vt4, t4, by simp [hmem]⟩
        · intro hC
          apply ih.mpr
          intro l1 c3 vt3 t3 l2 hdec
          obtain ⟨c4, vt4, t4, hmem⟩ := hC l1 c3 vt3 t3
            (l2 ++ [DomainEvent.vehicleRented c2 v2 vt2 t2])
            (by rw [hdec]; simp)
          simp only [List.mem_append, List.mem_singleton] at hmem
          rcases hmem with hmem | hmem
          · exact ⟨c4, vt4, t4, hmem⟩
          · exact absurd hmem (by simp)
    | vehicleReturned c2 v2 vt2 t2 =>
      rw [rentedNow_append_returned]
      by_cases hv : v2 = v
      · rw [if_pos hv]
        constructor
        · intro _ l1 c3 vt3 t3 l2 hdec
          rcases snoc_eq_append_cons _ _ _ _ _ hdec with ⟨-, hre, -⟩ |
              ⟨l3, rfl, hlog⟩
          · exact absurd hre (by simp)
          · exact ⟨c2, vt2, t2, by simp [hv]⟩
        · intro _
          rfl
      · rw [if_neg hv]
        constructor
        · intro hF l1 c3 vt3 t3 l2 hdec
          rcases snoc_eq_append_cons _ _ _ _ _ hdec with ⟨-, hre, -⟩ |
              ⟨l3, rfl, hlog⟩
          · exact absurd hre (by simp)
          · obtain ⟨c4, vt4, t4, hmem⟩ := (ih.mp hF) l1 c3 vt3 t3 l3 hlog
            exact ⟨c4, vt4, t4, by simp [hmem]⟩
        · intro hC
          apply ih.mpr
          intro l1 c3 vt3 t3 l2 hdec
          obtain ⟨c4, vt4, t4, hmem⟩ := hC l1 c3 vt3 t3
            (l2 ++ [DomainEvent.vehicleReturned c2 v2 vt2 t2])
            (by rw [hdec]; simp)
          simp only [List.mem_append, List.mem_singleton] at hmem
          rcases hmem with hmem | hmem
          · exact ⟨c4, vt4, t4, hmem⟩
          · rw [DomainEvent.vehicleReturned.injEq] at hmem
            exact absurd hmem.2.1.symm hv

/-- C5: on every log reachable by the decision processors, a plate is in the
hydrated `VehicleAvailability` set for a vehicle type iff a `VehicleAdded`
with that plate and type occurred and the vehicle is not currently rented —
every `VehicleRented` for the plate is followed by a later `VehicleReturned`
for it. -/
theorem vehicleAvailability_characterization (log : List DomainEvent)
    (h : Reachable log) (v : PlateNumber) (vt : VehicleType) :
    v ∈ (hydrateVehicleAvailability vt log).available_vehicles ↔
      (DomainEvent.vehicleAdded v vt ∈ log ∧ allRentsClosed v log) :=
  ((reachable_rentalInvariant log h).1 v vt).trans
    (and_congr_right fun _ => rentedNow_false_iff_allRentsClosed v log)

theorem vehicleAvailability_characterization_witness :
    DomainEvent.vehicleAdded "v1" VehicleType.car ∈
      [DomainEvent.customerRegistered "c1" "Bob" "Solo",
       DomainEvent.vehicleAdded "v1" VehicleType.car] ∧
    allRentsClosed "v1"
      [DomainEvent.customerRegistered "c1" "Bob" "Solo",
       DomainEvent.vehicleAdded "v1" VehicleType.car] := by
  have r1 : Reachable
      ([] ++ [DomainEvent.customerRegistered "c1" "Bob" "Solo"]) :=
    Reachable.registerCustomer [] ⟨"c1", "Bob", "Solo"⟩ _ Reachable.nil rfl
  have r2 : Reachable
      ([DomainEvent.customerRegistered "c1" "Bob" "Solo"] ++
        [DomainEvent.vehicleAdded "v1" VehicleType.car]) :=
    Reachable.registerVehicle _ ⟨"v1", VehicleType.car⟩ _ r1 rfl
  exact (vehicleAvailability_characterization _ r2 "v1" VehicleType.car).mp
    (by decide)

theorem statusOpen_decomp (c : Email) :
    ∀ (log : List DomainEvent) (v : PlateNumber),
      (hydrateCustomerRentalStatus c log).rented_vehicle_id = some v →
      ∃ l1 vt t l2, log = l1 ++ DomainEvent.vehicleRented c v vt t :: l2 ∧
        noLifecycleFor c l2 := by
  intro log
  induction log using List.reverseRecOn with
  | nil =>
    intro v hv
    simp [hydrateCustomerRentalStatus, CustomerRentalStatus.new] at hv
  | append_singleton log e ih =>
    intro v hv
    cases e with
    | customerRegistered c2 f n =>
      rw [status_append_registered] at hv
      obtain ⟨l1, vt, t, l2, hdec, hno⟩ := ih v hv
      refine ⟨l1, vt, t, l2 ++ [DomainEvent.customerRegistered c2 f n],
        by rw [hdec]; simp, ?_⟩
      intro e2 he2
      simp only [List.mem_append, List.mem_singleton] at he2
      rcases he2 with he2 | he2
      · exact hno e2 he2
      · subst he2
        simp
    | vehicleAdded v2 t2 =>
      rw [status_append_added] at hv
      obtain ⟨l1, vt, t, l2, hdec, hno⟩ := ih v hv
      refine ⟨l1, vt, t, l2 ++ [DomainEvent.vehicleAdded v2 t2],
        by rw [hdec]; simp, ?_⟩
      intro e2 he2
      simp only [List.mem_append, List.mem_singleton] at he2
      rcases he2 with he2 | he2
      · exact hno e2 he2
      · subst he2
        simp
    | vehicleRented c2 v2 vt2 t2 =>
      rw [status_append_rented] at hv
      by_cases hc : c2 = c
      · rw [if_pos hc] at hv
        simp only [Option.some.injEq] at hv
        subst hv
        subst hc
        refine ⟨log, vt2, t2, [], by simp, ?_⟩
        intro e2 he2
        exact absurd he2 (by simp)
      · rw [if_neg hc] at hv
        obtain ⟨l1, vt, t, l2, hdec, hno⟩ := ih v hv
        refine ⟨l1, vt, t, l2 ++ [DomainEvent.vehicleRented c2 v2 vt2 t2],
          by rw [hdec]; simp, ?_⟩
        intro e2 he2
        simp only [List.mem_append, List.mem_singleton] at he2
        rcases he2 with he2 | he2
        · exact hno e2 he2
        · subst he2
          constructor
          · intro v3 vt3 t3 hcon
            rw [DomainEvent.vehicleRented.injEq] at hcon
            exact hc hcon.1
          · intro v3 vt3 t3 hcon
            exact DomainEvent.noConfusion hcon
    | vehicleReturned c2 v2 vt2 t2 =>
      rw [status_append_returned] at hv
      by_cases hc : c2 = c
      · rw [if_pos hc] at hv
        exact absurd hv (by simp)
      · rw [if_neg hc] at hv
        obtain ⟨l1, vt, t, l2, hdec, hno⟩ := ih v hv
        refine ⟨l1, vt, t, l2 ++ [DomainEvent.vehicleReturned c2 v2 vt2 t2],
          by rw [hdec]; simp, ?_⟩
        intro e2 he2
        simp only [List.mem_append, List.mem_singleton] at he2
        rcases he2 with he2 | he2
        · exact hno e2 he2
        · subst he2
          constructor
          · intro v3 vt3 t3 hcon
            exact DomainEvent.noConfusion hcon
          · intro v3 vt3 t3 hcon
            rw [DomainEvent.vehicleReturned.injEq] at hcon
            exact hc hcon.1

/-- C6: a `CustomerRentalStatus` obtained by folding any `RentEvent` list
from the zero state has `rented_vehicle_id` and `rented_vehicle_type` both
`some` or both `none`; and on reachable logs the pair is set exactly while a
rental is open: when `rented_vehicle_id = some v` the log decomposes as a
prefix, a `VehicleRented` for that customer and plate, and a suffix
containing no further rental-lifecycle event for that customer (in
particular no matching `VehicleReturned` yet). -/
theorem customerRentalStatus_pairing :
    (∀ (cid : Email) (ges : List RentEvent),
      ((ges.foldl CustomerRentalStatus.mutate
          (CustomerRentalStatus.new cid)).rented_vehicle_id).isSome =
        ((ges.foldl CustomerRentalStatus.mutate
          (CustomerRentalStatus.new cid)).rented_vehicle_type).isSome) ∧
    (∀ (log : List DomainEvent), Reachable log →
      ∀ (c : Email) (v : PlateNumber),
      (hydrateCustomerRentalStatus c log).rented_vehicle_id = some v →
      ∃ l1 vt t l2, log = l1 ++ DomainEvent.vehicleRented c v vt t :: l2 ∧
        noLifecycleFor c l2) :=
  ⟨status_bothSome_fold, fun log _ c v hv => statusOpen_decomp c log v hv⟩

theorem customerRentalStatus_pairing_witness :
    (hydrateCustomerRentalStatus "c1"
        [DomainEvent.customerRegistered "c1" "Bob" "Solo",
         DomainEvent.vehicleAdded "v1" VehicleType.car,
         DomainEvent.vehicleRented "c1" "v1"
           VehicleType.car 0]).rented_vehicle_id = some "v1" ∧
    DomainEvent.vehicleRented "c1" "v1" VehicleType.car 0 ∈
      [DomainEvent.customerRegistered "c1" "Bob" "Solo",
       DomainEvent.vehicleAdded "v1" VehicleType.car,
       DomainEvent.vehicleRented "c1" "v1" VehicleType.car 0] := by
  have r1 : Reachable
      ([] ++ [DomainEvent.customerRegistered "c1" "Bob" "Solo"]) :=
    Reachable.registerCustomer [] ⟨"c1", "Bob", "Solo"⟩ _ Reachable.nil rfl
  have r2 : Reachable
      ([DomainEvent.customerRegistered "c1" "Bob" "Solo"] ++
        [DomainEvent.vehicleAdded "v1" VehicleType.car]) :=
    Reachable.registerVehicle _ ⟨"v1", VehicleType.car⟩ _ r1 rfl
  have r3 : Reachable
      ([DomainEvent.customerRegistered "c1" "Bob" "Solo",
        DomainEvent.vehicleAdded "v1" VehicleType.car] ++
        [DomainEvent.vehicleRented "c1" "v1" VehicleType.car 0]) :=
    Reachable.startRent _ ⟨"c1", VehicleType.car⟩ 0 _ r2 rfl
  have hid : (hydrateCustomerRentalStatus "c1"
      [DomainEvent.customerRegistered "c1" "Bob" "Solo",
       DomainEvent.vehicleAdded "v1" VehicleType.car,
       DomainEvent.vehicleRented "c1" "v1"
         VehicleType.car 0]).rented_vehicle_id = some "v1" := by decide
  obtain ⟨l1, vt, t, l2, hdec, -⟩ :=
    customerRentalStatus_pairing.2 _ r3 "c1" "v1" hid
  have hm : DomainEvent.vehicleRented "c1" "v1" vt t ∈
      l1 ++ DomainEvent.vehicleRented "c1" "v1" vt t :: l2 :=
    List.mem_append_right _ (List.mem_cons_self _ _)
  rw [← hdec] at hm
  simp at hm
  obtain ⟨rfl, rfl⟩ := hm
  exact ⟨hid, by simp⟩

end CarRental
